import Mathlib

/-
Verification development for the Self-Correcting Patch Engine of the
agentic-ai-mfg repository.

The Python sources are shallowly embedded as executable Lean definitions:

* JSON documents (`snapshot-data.json`) become the inductive type `Json`
  (Python dicts are ordered association lists, mirroring insertion order).
* Floating-point similarity scores become exact fractions `Frac` with a
  positive denominator; `Frac.toRat` interprets them in `ℚ`.
* `Demo/smart-planning/runtime/identify_snapshot.py` is embedded as
  `search_in_dict`, `levenshtein_distance`, `calculate_similarity_score`,
  `fuzzy_search_in_dict`, `search_by_id`, `search_empty_field`,
  `find_empty_arrays` and `identify_empty_field_mode`.
* `Demo/smart-planning/runtime/apply_correction.py` is embedded as
  `parse_target_path`, `json_fix_string` (the JSON-string guard, with
  `json_loads` modelling the integer/string/array/object subset of Python's
  `json.loads`), `apply_single_update` and `remove_from_array`.
* `Demo/smart-planning/runtime/validate_correction_schema_llm.py`'s
  `validate_with_retry` is embedded with the Pydantic validator and the
  LLM re-request as abstract parameters (both are external services).
* `Demo/agents/sp_agent.py`'s `_execute_pipeline`, `_suggest_recovery` and
  `execute_pipeline` are embedded with tool execution and storage reads
  supplied by a `PipelineEnv` environment (tools run as subprocesses).

Python `str.lower`/`str.strip`/`\w`/`\d` are modelled at ASCII precision
(`Char.toLower`, `Char.isWhitespace`, `Char.isAlphanum`, `Char.isDigit`).
-/

/-! ### Exact fractions standing in for Python floats -/

/-- An exact fraction with a positive denominator, standing in for the
Python floats used as similarity scores. -/
structure Frac where
  num : Int
  den : {d : ℕ // 0 < d}
  deriving DecidableEq, Repr

/-- Interpret a `Frac` as a rational number. -/
def Frac.toRat (f : Frac) : ℚ := (f.num : ℚ) / (f.den.1 : ℚ)

/-- Boolean comparison `a ≤ b` on fractions, by cross-multiplication. -/
def Frac.ble (a b : Frac) : Bool :=
  decide (a.num * (b.den.1 : Int) ≤ b.num * (a.den.1 : Int))

/-- The whole number one as a fraction. -/
def Frac.one : Frac := ⟨1, ⟨1, Nat.one_pos⟩⟩

/-- The whole number zero as a fraction. -/
def Frac.zero : Frac := ⟨0, ⟨1, Nat.one_pos⟩⟩


/-! ### JSON documents -/

/-- A JSON value.  Python dicts keep insertion order, so objects are
association lists. -/
inductive Json where
  | null
  | bool (b : Bool)
  | num (n : Int)
  | str (s : String)
  | arr (xs : List Json)
  | obj (fields : List (String × Json))
  deriving Repr, Inhabited

/-- Whether a value is a Python dict. -/
def Json.isObj : Json → Bool
  | .obj _ => true
  | _ => false

/-- Whether a value is a Python list. -/
def Json.isArr : Json → Bool
  | .arr _ => true
  | _ => false

/-- Python dict key lookup (`obj[k]` / `k in obj` / `obj.get(k)`). -/
def jlookup : List (String × Json) → String → Option Json
  | [], _ => none
  | (k, v) :: rest, key => if k = key then some v else jlookup rest key

/-- Python dict assignment `obj[k] = v`: replaces the value in place when the
key is present, appends at the end otherwise (insertion-order semantics). -/
def jset : List (String × Json) → String → Json → List (String × Json)
  | [], key, v => [(key, v)]
  | (k, w) :: rest, key, v =>
      if k = key then (key, v) :: rest else (k, w) :: jset rest key v

mutual

/-- Structural equality of JSON values, modelling Python `==` (with objects
compared in stored order; JSON round-trips preserve key order). -/
def Json.beq : Json → Json → Bool
  | .null, .null => true
  | .bool a, .bool b => a == b
  | .num a, .num b => a == b
  | .str a, .str b => a == b
  | .arr xs, .arr ys => Json.beqList xs ys
  | .obj a, .obj b => Json.beqObj a b
  | _, _ => false

/-- Pointwise `Json.beq` on lists. -/
def Json.beqList : List Json → List Json → Bool
  | [], [] => true
  | x :: xs, y :: ys => Json.beq x y && Json.beqList xs ys
  | _, _ => false

/-- Pointwise `Json.beq` on association lists. -/
def Json.beqObj : List (String × Json) → List (String × Json) → Bool
  | [], [] => true
  | (k, v) :: xs, (k', v') :: ys => k == k' && Json.beq v v' && Json.beqObj xs ys
  | _, _ => false

end

/-! ### String helpers modelling Python primitives -/

/-- Python `str.lower` (ASCII model): lowercase every character. -/
def py_lower (s : String) : String := String.mk (s.toList.map Char.toLower)

/-- Python `str.strip()`: drop whitespace from both ends. -/
def py_strip (s : String) : String :=
  String.mk (((s.toList.dropWhile Char.isWhitespace).reverse.dropWhile
    Char.isWhitespace).reverse)

/-- Scan for `needle` as a contiguous sublist of `hay`. -/
def list_in : List Char → List Char → Bool
  | needle, [] => needle.isEmpty
  | needle, c :: rest => needle.isPrefixOf (c :: rest) || list_in needle rest

/-- Python substring test `needle in hay`. -/
def py_in (needle hay : String) : Bool := list_in needle.toList hay.toList


/-- Left opening brace character, written by code to survive plain-text
string restrictions. -/
def lbrace : Char := Char.ofNat 123

/-- Right closing brace character. -/
def rbrace : Char := Char.ofNat 125

/-! ### apply_correction.py: target-path grammar -/

/-- The field component of a parsed target path: either a plain field name,
or (for the `collection[i].nestedField[j]` form, which `parse_target_path`
encodes as the string `"nested:field[idx]"`) a nested array access. -/
inductive FieldSpec where
  | plain (name : String)
  | nested (nested_field : String) (nested_index : Nat)
  deriving Repr, DecidableEq

/-- The exception taxonomy of `apply_correction.py` (ValueError, KeyError,
IndexError, TypeError). -/
inductive ApplyErr where
  | valueErr (msg : String)
  | keyErr (msg : String)
  | indexErr (msg : String)
  | typeErr (msg : String)
  deriving Repr, DecidableEq

/-- Python regex `\w` (ASCII model). -/
def is_word_char (c : Char) : Bool := c.isAlphanum || c = '_'

/-- Digits-to-number conversion for the `\d+` captures. -/
def digits_to_nat (ds : List Char) : Nat :=
  ds.foldl (fun acc c => acc * 10 + (c.toNat - '0'.toNat)) 0

/-- Embeds `parse_target_path`: the four anchored regex alternatives
`name[i].field[j]`, `name[i].field`, `name[i]`, `name`, tried on a path
string; anything else is the ValueError branch.  Since `\w` and `\d` are
disjoint from the literal separators, greedy spans coincide with the
regex captures. -/
def parse_target_path (path : String) :
    Except ApplyErr (String × Option Nat × Option FieldSpec) :=
  let bad : Except ApplyErr (String × Option Nat × Option FieldSpec) :=
    .error (.valueErr ("Invalid target path format: " ++ path))
  match path.toList.span is_word_char with
  | (w, r) =>
    if w = [] then bad
    else
      match r with
      | [] => .ok (String.mk w, none, none)
      | '[' :: r1 =>
        match r1.span Char.isDigit with
        | (d, r2) =>
          if d = [] then bad
          else
            match r2 with
            | ']' :: r3 =>
              match r3 with
              | [] => .ok (String.mk w, some (digits_to_nat d), none)
              | '.' :: r4 =>
                match r4.span is_word_char with
                | (f, r5) =>
                  if f = [] then bad
                  else
                    match r5 with
                    | [] => .ok (String.mk w, some (digits_to_nat d),
                        some (.plain (String.mk f)))
                    | '[' :: r6 =>
                      match r6.span Char.isDigit with
                      | (d2, r7) =>
                        if d2 = [] then bad
                        else
                          match r7 with
                          | [']'] => .ok (String.mk w, some (digits_to_nat d),
                              some (.nested (String.mk f) (digits_to_nat d2)))
                          | _ => bad
                    | _ => bad
              | _ => bad
            | _ => bad
      | _ => bad

/-! ### A model of Python json.loads (null / booleans / integers /
strings / arrays / objects; floats are out of scope of the claims) -/

/-- JSON whitespace skipping. -/
def skip_ws : List Char → List Char
  | c :: rest =>
      if c = ' ' ∨ c = '\t' ∨ c = '\n' ∨ c = '\r' then skip_ws rest else c :: rest
  | [] => []

/-- Parse a JSON string body after the opening quote, handling the plain
escapes. -/
def parse_jstring : List Char → Option (String × List Char)
  | [] => none
  | c :: rest =>
    if c = '"' then some ("", rest)
    else if c = '\\' then
      match rest with
      | [] => none
      | e :: rest2 =>
        let ch : Char :=
          if e = 'n' then '\n' else if e = 't' then '\t'
          else if e = 'r' then '\r' else e
        match parse_jstring rest2 with
        | some (s, r) => some (String.mk (ch :: s.toList), r)
        | none => none
    else
      match parse_jstring rest with
      | some (s, r) => some (String.mk (c :: s.toList), r)
      | none => none

/-- Parse an optionally signed run of digits. -/
def parse_jint (cs : List Char) : Option (Int × List Char) :=
  match cs with
  | '-' :: rest =>
    match rest.span Char.isDigit with
    | ([], _) => none
    | (ds, r) => some (-(digits_to_nat ds : Int), r)
  | _ =>
    match cs.span Char.isDigit with
    | ([], _) => none
    | (ds, r) => some ((digits_to_nat ds : Int), r)

mutual

/-- Fuel-indexed recursive-descent JSON value parser. -/
def parse_jvalue : Nat → List Char → Option (Json × List Char)
  | 0, _ => none
  | fuel + 1, cs =>
    match skip_ws cs with
    | [] => none
    | c :: rest =>
      if c = 'n' then
        match rest with
        | 'u' :: 'l' :: 'l' :: r => some (.null, r)
        | _ => none
      else if c = 't' then
        match rest with
        | 'r' :: 'u' :: 'e' :: r => some (.bool true, r)
        | _ => none
      else if c = 'f' then
        match rest with
        | 'a' :: 'l' :: 's' :: 'e' :: r => some (.bool false, r)
        | _ => none
      else if c = '"' then
        match parse_jstring rest with
        | some (s, r) => some (.str s, r)
        | none => none
      else if c = '[' then
        match skip_ws rest with
        | ']' :: r => some (.arr [], r)
        | cs2 => match parse_jelems fuel cs2 with
          | some (xs, r) => some (.arr xs, r)
          | none => none
      else if c = lbrace then
        match skip_ws rest with
        | c2 :: r =>
          if c2 = rbrace then some (.obj [], r)
          else match parse_jmembers fuel (c2 :: r) with
            | some (kvs, r2) => some (.obj kvs, r2)
            | none => none
        | [] => none
      else
        match parse_jint (c :: rest) with
        | some (n, r) => some (.num n, r)
        | none => none

/-- Comma-separated array elements followed by `]`. -/
def parse_jelems : Nat → List Char → Option (List Json × List Char)
  | 0, _ => none
  | fuel + 1, cs =>
    match parse_jvalue fuel cs with
    | none => none
    | some (v, r) =>
      match skip_ws r with
      | ',' :: r2 =>
        match parse_jelems fuel r2 with
        | some (vs, r3) => some (v :: vs, r3)
        | none => none
      | ']' :: r2 => some ([v], r2)
      | _ => none

/-- Comma-separated `"key": value` members followed by the closing brace. -/
def parse_jmembers : Nat → List Char → Option (List (String × Json) × List Char)
  | 0, _ => none
  | fuel + 1, cs =>
    match skip_ws cs with
    | '"' :: r =>
      match parse_jstring r with
      | none => none
      | some (k, r2) =>
        match skip_ws r2 with
        | ':' :: r3 =>
          match parse_jvalue fuel r3 with
          | none => none
          | some (v, r4) =>
            match skip_ws r4 with
            | ',' :: r5 =>
              match parse_jmembers fuel r5 with
              | some (kvs, r6) => some ((k, v) :: kvs, r6)
              | none => none
            | c :: r5 => if c = rbrace then some ([(k, v)], r5) else none
            | [] => none
        | _ => none
    | _ => none

end

/-- Model of Python `json.loads` on the subset relevant here: parses a whole
string as one JSON value with nothing but whitespace around it. -/
def json_loads (s : String) : Option Json :=
  match parse_jvalue (s.length + 1) s.toList with
  | some (v, r) => if skip_ws r = [] then some v else none
  | none => none

/-- Python `s.startswith(c)` for a single character: the first character of
the string equals `c`. -/
def starts_with_char (s : String) (c : Char) : Bool :=
  match s.toList with
  | c0 :: _ => c0 = c
  | [] => false

/-- Embeds the JSON-string guard of `apply_single_update`: a string value
whose first character is a bracket or a brace is fed through `json.loads`;
on success the parsed structure replaces the string, otherwise (and for
every other value) the value is kept as-is. -/
def json_fix_string : Json → Json
  | .str s =>
      if starts_with_char s '[' || starts_with_char s lbrace then
        match json_loads s with
        | some v => v
        | none => .str s
      else .str s
  | v => v

/-! ### apply_correction.py: apply_single_update and remove_from_array -/

/-- The per-record core of `apply_single_update`: given the record at
`collection[index]`, performs the plain-field or nested-array write of the
source and returns the updated record with the reported old value.  A
non-dict record raises in Python (AttributeError on `.get` for the plain
form, a failed `in` check for the nested form); both are modelled with the
matching error kinds. -/
def apply_update_record (array_name : String) (index : Nat) (fs : FieldSpec)
    (new_value : Json) : Json → Except ApplyErr (Json × Json)
  | .obj kvs =>
    match fs with
    | .nested nested_field nested_index =>
      match jlookup kvs nested_field with
      | none => .error (.keyErr ("Nested field '" ++ nested_field ++
          "' not found in " ++ array_name ++ "[" ++ toString index ++ "]"))
      | some nval =>
        match nval with
        | .arr nitems =>
          if nested_index < nitems.length then
            .ok (.obj (jset kvs nested_field (.arr (nitems.set nested_index new_value))),
              nitems.getD nested_index .null)
          else .error (.indexErr ("Nested index " ++ toString nested_index ++
              " out of range for " ++ array_name ++ "[" ++ toString index ++
              "]." ++ nested_field))
        | _ => .error (.typeErr ("Nested field '" ++ nested_field ++
            "' in " ++ array_name ++ "[" ++ toString index ++ "] is not an array"))
    | .plain field_name =>
        .ok (.obj (jset kvs field_name new_value),
          (jlookup kvs field_name).getD .null)
  | _ =>
    match fs with
    | .nested nested_field _ => .error (.keyErr ("Nested field '" ++ nested_field ++
        "' not found in " ++ array_name ++ "[" ++ toString index ++ "]"))
    | .plain _ => .error (.typeErr ("record at " ++ array_name ++ "[" ++
        toString index ++ "] is not an object"))

/-- Embeds `apply_single_update(data, target_path, new_value)`.  The returned
triple is the mutated document together with the `(old_value, new_value)`
pair the Python function returns.  Path validation, the JSON-string guard
and the collection/index checks happen here; the record write itself is
`apply_update_record`.  A non-list collection raises in Python; it is
modelled as a TypeError. -/
def apply_single_update (data : List (String × Json)) (target_path : String)
    (new_value : Json) :
    Except ApplyErr (List (String × Json) × Json × Json) := do
  let (array_name, index?, field?) ← parse_target_path target_path
  match index?, field? with
  | some index, some fs =>
    match jlookup data array_name with
    | none => .error (.keyErr ("Array '" ++ array_name ++ "' not found in snapshot data"))
    | some col =>
      match col with
      | .arr items =>
        if h : index < items.length then
          let new_value := json_fix_string new_value
          match apply_update_record array_name index fs new_value items[index] with
          | .ok (record_updated, old_value) =>
              .ok (jset data array_name (.arr (items.set index record_updated)),
                old_value, new_value)
          | .error e => .error e
        else .error (.indexErr ("Index " ++ toString index ++
            " out of range for array '" ++ array_name ++ "' (length: " ++
            toString items.length ++ ")"))
      | _ => .error (.typeErr ("'" ++ array_name ++ "' is not an array"))
  | _, _ => .error (.valueErr ("update_field action requires full path with index and field: "
      ++ target_path))

/-- Predicate of `remove_from_array`'s search loop: all keys of the
`item_to_remove` dict match the record (`item.get(k) == v`, with `None`
for missing keys). -/
def dict_matches (pred : List (String × Json)) (item : List (String × Json)) : Bool :=
  pred.all (fun kv => Json.beq ((jlookup item kv.1).getD .null) kv.2)

/-- Scan of `remove_from_array`: find and remove the first dict record all
of whose predicate fields match; non-dict records are skipped. -/
def remove_matching (pred : List (String × Json)) :
    List Json → Option (Json × List Json)
  | [] => none
  | x :: rest =>
    match x with
    | .obj kvs =>
        if dict_matches pred kvs then some (x, rest)
        else match remove_matching pred rest with
          | some (r, l) => some (r, x :: l)
          | none => none
    | _ =>
        match remove_matching pred rest with
        | some (r, l) => some (r, x :: l)
        | none => none

/-- Embeds `remove_from_array(data, target_path, item_to_remove)`: with an
explicit index the indexed record is popped; otherwise the first record
matching the key-value predicate dict is removed, `ValueError` if none
matches. -/
def remove_from_array (data : List (String × Json)) (target_path : String)
    (item_to_remove : Json) : Except ApplyErr (List (String × Json) × Json) := do
  let (array_name, index?, _field?) ← parse_target_path target_path
  match index? with
  | some index =>
    match jlookup data array_name with
    | none => .error (.keyErr ("Array '" ++ array_name ++ "' not found in snapshot data"))
    | some (.arr items) =>
      if h : index < items.length then
        .ok (jset data array_name (.arr (items.eraseIdx index)), items[index])
      else .error (.indexErr ("Index " ++ toString index ++
          " out of range for array '" ++ array_name ++ "'"))
    | some _ => .error (.typeErr ("'" ++ array_name ++ "' is not an array"))
  | none =>
    match jlookup data array_name with
    | none => .error (.keyErr ("Array '" ++ array_name ++ "' not found in snapshot data"))
    | some (.arr items) =>
      match item_to_remove with
      | .obj pred =>
        match remove_matching pred items with
        | some (removed, rest) => .ok (jset data array_name (.arr rest), removed)
        | none => .error (.valueErr ("No matching item found to remove from '"
            ++ array_name ++ "'"))
      | _ => .error (.typeErr "item_to_remove must be a dict when index not specified")
    | some _ => .error (.typeErr ("'" ++ array_name ++ "' is not an array"))

/-! ### identify_snapshot.py: exact and fuzzy search -/

/-- One entry of the result lists built by `identify_snapshot.py`: the dicts
carry `path`, `key` (dict hits) or `index` (list hits), `value`, `parent`,
and, for fuzzy matches, `similarity_score` and `fuzzy_match`. -/
structure SearchHit where
  path : String
  key : Option String := none
  index : Option Nat := none
  value : Json
  parent : Json
  similarity_score : Option Frac := none
  fuzzy_match : Bool := false
  deriving Repr

/-- Path extension for a dict key: `f"{path}.{key}" if path else key`. -/
def join_key (path key : String) : String :=
  if path = "" then key else path ++ "." ++ key

/-- Path extension for a list index: `f"{path}[{idx}]"`. -/
def join_idx (path : String) (idx : Nat) : String :=
  path ++ "[" ++ toString idx ++ "]"

mutual

/-- Embeds `search_in_dict(obj, search_value, path)`: recursive exact search.
A string value matches if it contains the target case-insensitively; an
int/float (and, through Python's bool-is-int, a bool) matches if its `str`
equals the target.  Dicts and lists are recursed into. -/
def search_in_dict (search_value : String) (path : String) : Json → List SearchHit
  | .obj kvs => search_in_dict_obj search_value path (.obj kvs) kvs
  | .arr xs => search_in_dict_list search_value path (.arr xs) 0 xs
  | _ => []

/-- Dict branch of `search_in_dict`; `parent` is the whole dict being
iterated. -/
def search_in_dict_obj (search_value path : String) (parent : Json) :
    List (String × Json) → List SearchHit
  | [] => []
  | (k, v) :: rest =>
    let current_path := join_key path k
    let own : List SearchHit :=
      match v with
      | .str s =>
          if py_in (py_lower search_value) (py_lower s) then
            [{ path := current_path, key := some k, value := .str s, parent := parent }]
          else []
      | .num n =>
          if search_value = toString n then
            [{ path := current_path, key := some k, value := .num n, parent := parent }]
          else []
      | .bool b =>
          if search_value = (if b then "True" else "False") then
            [{ path := current_path, key := some k, value := .bool b, parent := parent }]
          else []
      | _ => []
    let deeper : List SearchHit :=
      match v with
      | .obj _ => search_in_dict search_value current_path v
      | .arr _ => search_in_dict search_value current_path v
      | _ => []
    own ++ deeper ++ search_in_dict_obj search_value path parent rest

/-- List branch of `search_in_dict`; `parent` is the whole list being
iterated and `idx` the index of the head of the remaining items. -/
def search_in_dict_list (search_value path : String) (parent : Json) (idx : Nat) :
    List Json → List SearchHit
  | [] => []
  | item :: rest =>
    let current_path := join_idx path idx
    let own : List SearchHit :=
      match item with
      | .str s =>
          if py_in (py_lower search_value) (py_lower s) then
            [{ path := current_path, index := some idx, value := .str s, parent := parent }]
          else []
      | .num n =>
          if search_value = toString n then
            [{ path := current_path, index := some idx, value := .num n, parent := parent }]
          else []
      | .bool b =>
          if search_value = (if b then "True" else "False") then
            [{ path := current_path, index := some idx, value := .bool b, parent := parent }]
          else []
      | _ => []
    let deeper : List SearchHit :=
      match item with
      | .obj _ => search_in_dict search_value current_path item
      | .arr _ => search_in_dict search_value current_path item
      | _ => []
    own ++ deeper ++ search_in_dict_list search_value path parent (idx + 1) rest

end

/-! ### identify_snapshot.py: Levenshtein distance and similarity score -/

/-- Inner loop of `levenshtein_distance`: extends the current DP row.
`prev` is the tail of the previous row aligned at column `j` and `cur` the
last value appended to the current row. -/
def lev_inner (c1 : Char) : List Char → List Nat → Nat → List Nat
  | [], _, _ => []
  | c2 :: cs, prev, cur =>
    match prev with
    | [] => []
    | pj :: rest =>
      let insertions := rest.headD 0 + 1
      let deletions := cur + 1
      let substitutions := pj + (if c1 = c2 then 0 else 1)
      let nxt := min insertions (min deletions substitutions)
      nxt :: lev_inner c1 cs rest nxt

/-- Outer loop of `levenshtein_distance` over the characters of `s1`,
threading the previous DP row; returns the last entry of the final row. -/
def lev_loop (s2 : List Char) : List Char → List Nat → Nat → Nat
  | [], prev, _ => prev.getLastD 0
  | c1 :: cs, prev, i =>
    let current := (i + 1) :: lev_inner c1 s2 prev (i + 1)
    lev_loop s2 cs current (i + 1)

/-- Body of `levenshtein_distance` after the argument swap: empty `s2`
short-circuit, then the row DP starting from `range(len(s2) + 1)`. -/
def lev_go (s1 s2 : List Char) : Nat :=
  if s2.length = 0 then s1.length
  else lev_loop s2 s1 (List.range (s2.length + 1)) 0

/-- Embeds `levenshtein_distance(s1, s2)` (with the initial swap placing the
longer string first). -/
def levenshtein_distance (s1 s2 : String) : Nat :=
  if s1.toList.length < s2.toList.length then lev_go s2.toList s1.toList
  else lev_go s1.toList s2.toList

/-- Embeds `calculate_similarity_score(search_value, candidate)`:
`1.0` on case-insensitive equality; otherwise
`min(1, 1 - distance/max_len + substring_bonus)` with a `0.2` bonus when
either lowercased string contains the other, `0.0` when both strings are
empty.  The result is the exact fraction
`(5*(max_len - distance) + bonus_num*max_len) / (5*max_len)` capped at 1,
where `bonus_num` is 1 or 0. -/
def calculate_similarity_score (search_value candidate : String) : Frac :=
  let search_lower := py_lower search_value
  let candidate_lower := py_lower candidate
  if search_lower = candidate_lower then Frac.one
  else
    let bonus_num : Nat :=
      if py_in search_lower candidate_lower || py_in candidate_lower search_lower
      then 1 else 0
    let max_len := max search_lower.toList.length candidate_lower.toList.length
    if h : max_len = 0 then Frac.zero
    else
      let distance := levenshtein_distance search_lower candidate_lower
      let numerator : Int :=
        5 * ((max_len : Int) - (distance : Int)) + (bonus_num : Int) * (max_len : Int)
      if 5 * (max_len : Int) ≤ numerator then Frac.one
      else ⟨numerator, ⟨5 * max_len, by omega⟩⟩

mutual

/-- Embeds `fuzzy_search_in_dict(obj, search_value, path, min_similarity)`:
collects every nonempty string value whose similarity score reaches the
threshold, with the score. -/
def fuzzy_search_in_dict (search_value : String) (min_similarity : Frac)
    (path : String) : Json → List (SearchHit × Frac)
  | .obj kvs => fuzzy_search_obj search_value min_similarity path (.obj kvs) kvs
  | .arr xs => fuzzy_search_list search_value min_similarity path (.arr xs) 0 xs
  | _ => []

/-- Dict branch of the fuzzy search. -/
def fuzzy_search_obj (search_value : String) (min_similarity : Frac)
    (path : String) (parent : Json) : List (String × Json) → List (SearchHit × Frac)
  | [] => []
  | (k, v) :: rest =>
    let current_path := join_key path k
    let own : List (SearchHit × Frac) :=
      match v with
      | .str s =>
          if s.toList.length > 0 then
            let similarity := calculate_similarity_score search_value s
            if Frac.ble min_similarity similarity then
              [({ path := current_path, key := some k, value := .str s,
                  parent := parent }, similarity)]
            else []
          else []
      | _ => []
    let deeper : List (SearchHit × Frac) :=
      match v with
      | .obj _ => fuzzy_search_in_dict search_value min_similarity current_path v
      | .arr _ => fuzzy_search_in_dict search_value min_similarity current_path v
      | _ => []
    own ++ deeper ++ fuzzy_search_obj search_value min_similarity path parent rest

/-- List branch of the fuzzy search. -/
def fuzzy_search_list (search_value : String) (min_similarity : Frac)
    (path : String) (parent : Json) (idx : Nat) : List Json → List (SearchHit × Frac)
  | [] => []
  | item :: rest =>
    let current_path := join_idx path idx
    let own : List (SearchHit × Frac) :=
      match item with
      | .str s =>
          if s.toList.length > 0 then
            let similarity := calculate_similarity_score search_value s
            if Frac.ble min_similarity similarity then
              [({ path := current_path, index := some idx, value := .str s,
                  parent := parent }, similarity)]
            else []
          else []
      | _ => []
    let deeper : List (SearchHit × Frac) :=
      match item with
      | .obj _ => fuzzy_search_in_dict search_value min_similarity current_path item
      | .arr _ => fuzzy_search_in_dict search_value min_similarity current_path item
      | _ => []
    own ++ deeper ++ fuzzy_search_list search_value min_similarity path parent (idx + 1) rest

end

/-! ### A stable descending sort, modelling Python list.sort(reverse=True) -/

/-- Stable insertion of `x` before the first element it is
greater-or-equal to. -/
def insert_desc {α : Type} (ge : α → α → Bool) (x : α) : List α → List α
  | [] => [x]
  | y :: ys => if ge x y then x :: y :: ys else y :: insert_desc ge x ys

/-- Stable descending insertion sort: models Python's stable
`list.sort(key=..., reverse=True)`. -/
def sort_desc {α : Type} (ge : α → α → Bool) : List α → List α
  | [] => []
  | x :: xs => insert_desc ge x (sort_desc ge xs)

/-- The fixed fuzzy threshold `min_similarity = 0.6`. -/
def min_similarity_06 : Frac := ⟨3, ⟨5, by omega⟩⟩

/-- Comparison key of `search_by_id`'s sort: order fuzzy pairs by descending
similarity. -/
def fuzzy_ge (a b : SearchHit × Frac) : Bool := Frac.ble b.2 a.2

/-- Embeds `search_by_id(data, search_id)`: exact search first; only when it
returns no results, fuzzy search with threshold 0.6, stable-sorted by
descending similarity, truncated to the top 5 and tagged with
`similarity_score` and `fuzzy_match=True`. -/
def search_by_id (data : Json) (search_id : String) : List SearchHit :=
  let results := search_in_dict search_id "" data
  if results.isEmpty then
    let fuzzy_results := fuzzy_search_in_dict search_id min_similarity_06 "" data
    if fuzzy_results.isEmpty then []
    else
      ((sort_desc fuzzy_ge fuzzy_results).take 5).map
        (fun rs => { rs.1 with similarity_score := some rs.2, fuzzy_match := true })
  else results

/-! ### identify_snapshot.py: empty-field search and empty arrays -/

/-- The emptiness test of `search_empty_field`: the value is `None`, the
empty string, or a whitespace-only string (`value.strip() == ""`). -/
def is_empty_value : Json → Bool
  | .null => true
  | .str s => s = "" || py_strip s = ""
  | _ => false

mutual

/-- Embeds `search_empty_field(obj, field_name, path)`: collects every dict
that CONTAINS `field_name` with an empty value (dicts not containing the
field contribute nothing), recursing into nested dicts and lists. -/
def search_empty_field (field_name : String) (path : String) : Json → List SearchHit
  | .obj kvs =>
    let own : List SearchHit :=
      match jlookup kvs field_name with
      | some v =>
          if is_empty_value v then
            [{ path := join_key path field_name, key := some field_name,
               value := v, parent := .obj kvs }]
          else []
      | none => []
    own ++ search_empty_field_obj field_name path kvs
  | .arr xs => search_empty_field_list field_name path 0 xs
  | _ => []

/-- Recursion of `search_empty_field` over the values of a dict. -/
def search_empty_field_obj (field_name : String) (path : String) :
    List (String × Json) → List SearchHit
  | [] => []
  | (k, v) :: rest =>
    let deeper :=
      match v with
      | .obj _ => search_empty_field field_name (join_key path k) v
      | .arr _ => search_empty_field field_name (join_key path k) v
      | _ => []
    deeper ++ search_empty_field_obj field_name path rest

/-- Recursion of `search_empty_field` over the items of a list. -/
def search_empty_field_list (field_name : String) (path : String) (idx : Nat) :
    List Json → List SearchHit
  | [] => []
  | item :: rest =>
    let deeper :=
      match item with
      | .obj _ => search_empty_field field_name (join_idx path idx) item
      | .arr _ => search_empty_field field_name (join_idx path idx) item
      | _ => []
    deeper ++ search_empty_field_list field_name path (idx + 1) rest

end

/-- Embeds `normalize_field_name`: drop spaces and underscores, lowercase. -/
def normalize_field_name (name : String) : String :=
  String.mk ((name.toList.filter (fun c => ¬ (c = ' ' ∨ c = '_'))).map Char.toLower)

/-- One hit of `find_empty_arrays`: an empty list value whose normalized key
matches the normalized search field. -/
structure EmptyArrayHit where
  path : String
  field_name : String
  deriving Repr, DecidableEq

mutual

/-- Embeds `find_empty_arrays(data, search_field)`'s `search_recursive`:
for every dict entry, record it when the value is an empty list with a
matching normalized name, then recurse into the value; lists are recursed
into elementwise. -/
def find_empty_arrays (search_field : String) (path : String) : Json → List EmptyArrayHit
  | .obj kvs => find_empty_arrays_obj search_field path kvs
  | .arr xs => find_empty_arrays_list search_field path 0 xs
  | _ => []

/-- Dict iteration of `find_empty_arrays`. -/
def find_empty_arrays_obj (search_field : String) (path : String) :
    List (String × Json) → List EmptyArrayHit
  | [] => []
  | (k, v) :: rest =>
    let current_path := join_key path k
    let own : List EmptyArrayHit :=
      match v with
      | .arr [] =>
          if normalize_field_name k = normalize_field_name search_field then
            [{ path := current_path, field_name := k }]
          else []
      | _ => []
    let deeper : List EmptyArrayHit :=
      match v with
      | .obj _ => find_empty_arrays search_field current_path v
      | .arr _ => find_empty_arrays search_field current_path v
      | _ => []
    own ++ deeper ++ find_empty_arrays_obj search_field path rest

/-- List iteration of `find_empty_arrays`. -/
def find_empty_arrays_list (search_field : String) (path : String) (idx : Nat) :
    List Json → List EmptyArrayHit
  | [] => []
  | item :: rest =>
    let deeper : List EmptyArrayHit :=
      match item with
      | .obj _ => find_empty_arrays search_field (join_idx path idx) item
      | .arr _ => find_empty_arrays search_field (join_idx path idx) item
      | _ => []
    deeper ++ find_empty_arrays_list search_field path (idx + 1) rest

end

/-- Python truthiness of a JSON value (`if reference_data[field_path]:`). -/
def json_truthy : Json → Bool
  | .null => false
  | .bool b => b
  | .num n => n ≠ 0
  | .str s => s ≠ ""
  | .arr xs => ¬ xs.isEmpty
  | .obj kvs => ¬ kvs.isEmpty

/-- First three elements of a JSON array (`reference_data[field_path][:3]`);
slicing anything else raises in Python and does not occur here. -/
def json_take3 : Json → List Json
  | .arr xs => xs.take 3
  | _ => []

/-- Length of a JSON array (`len(reference_data[field_path])`). -/
def json_len : Json → Nat
  | .arr xs => xs.length
  | _ => 0

/-- The result dicts built by the `--empty` branch of
`identify_snapshot.main`: the reference-data fallback dict, the
manual-intervention dict, or an ordinary empty-field hit. -/
inductive EmptyFieldResult where
  | refData (path field_name : String) (samples : List Json) (count : Nat)
      (warning : String)
  | manual (path field_name reason : String)
  | emptyField (hit : SearchHit)
  deriving Repr

/-- Embeds the `--empty` search-mode branch of `identify_snapshot.main`:
if `find_empty_arrays` finds an empty matching array, Plan B (reference
data, only when the config flag is on and the reference document has a
truthy entry for the path) or Plan C (manual intervention) applies to the
FIRST hit; otherwise the per-record `search_empty_field` walk runs.
`reference_data` models `load_reference_snapshot()` (None when the file is
missing); it is consulted only in the fallback-enabled branch. -/
def identify_empty_field_mode (data : Json) (field_name : String)
    (use_reference_fallback : Bool) (reference_data : Option Json) :
    List EmptyFieldResult :=
  match find_empty_arrays field_name "" data with
  | [] => (search_empty_field field_name "" data).map .emptyField
  | first :: _ =>
    let field_path := first.path
    if use_reference_fallback then
      match reference_data with
      | some (.obj ref_kvs) =>
        match jlookup ref_kvs field_path with
        | some entry =>
            if json_truthy entry then
              [.refData field_path first.field_name (json_take3 entry) (json_len entry)
                "[!] Using reference snapshot as automatic fallback - verify manually after correction"]
            else
              [.manual field_path first.field_name
                "Empty array with no reference data available"]
        | none =>
            [.manual field_path first.field_name
              "Empty array with no reference data available"]
      | _ =>
          [.manual field_path first.field_name
            "Empty array with no reference data available"]
    else
      [.manual field_path first.field_name
        "Empty array - reference data fallback disabled in config"]

/-! ### validate_correction_schema_llm.py: the ProposalGate retry loop -/

/-- Loop of `validate_with_retry`, with the Pydantic validator (`valid`),
the LLM re-request (`llm`, indexed by the retry counter it is called with)
and the proposal type abstract.  The result is `(some proposal, llm_calls)`
when validation eventually passes and `(none, llm_calls)` for the
`sys.exit(1)` branch after exhausting the retries.  The fuel argument is
`max_retries + 2`, enough for every reachable iteration. -/
def validate_retry_loop {P : Type} (valid : P → Bool) (llm : Nat → P)
    (max_retries : Nat) : P → Nat → Nat → Nat → Option P × Nat
  | _, _, calls, 0 => (none, calls)
  | current, retry_count, calls, fuel + 1 =>
    if valid current then (some current, calls)
    else
      let rc := retry_count + 1
      if rc ≤ max_retries then
        validate_retry_loop valid llm max_retries (llm rc) rc (calls + 1) fuel
      else (none, calls)

/-- Embeds `validate_with_retry(..., max_retries=5)` over an initial
correction proposal. -/
def validate_with_retry {P : Type} (valid : P → Bool) (llm : Nat → P)
    (correction_proposal : P) (max_retries : Nat := 5) : Option P × Nat :=
  validate_retry_loop valid llm max_retries correction_proposal 0 0 (max_retries + 2)

/-! ### sp_agent.py: per-step retry, recovery classification, pipelines -/

/-- The dict returned by `SPAgent._run_tool`: empty strings stand for the
missing/falsy `stderr` and `error` entries. -/
structure ToolResult where
  success : Bool
  stdout : String := ""
  stderr : String := ""
  error : String := ""
  deriving Repr, DecidableEq

/-- The error-message selection `tool_result.get("stderr", "") or
tool_result.get("error", "")` (Python `or` keeps the first truthy value). -/
def error_msg_of (r : ToolResult) : String :=
  if r.stderr ≠ "" then r.stderr else r.error

/-- The fixed non-retryable terminal conditions of `_execute_pipeline`. -/
def non_retryable_errors : List String :=
  ["Snapshot nicht gefunden", "Snapshot does not exist",
   "Authentication failed", "CLIENT_SECRET"]

/-- Whether a failure message matches a terminal condition
(`any(err in error_msg for err in non_retryable_errors)`). -/
def is_non_retryable (msg : String) : Bool :=
  non_retryable_errors.any (fun e => py_in e msg)

/-- The per-step retry loop of `_execute_pipeline` with `max_retries = 2`:
attempt numbers count from 1; a successful or non-retryable attempt stops
the loop, and after the final allowed attempt the loop exits with that
attempt's result.  `exec` gives the tool outcome of each attempt; `fuel`
is the number of retries still allowed.  Returns the attempt count and
the last tool result. -/
def run_step (exec : Nat → ToolResult) (attempt : Nat) : Nat → Nat × ToolResult
  | 0 => (attempt + 1, exec (attempt + 1))
  | fuel + 1 =>
    let a := attempt + 1
    let r := exec a
    if r.success then (a, r)
    else if is_non_retryable (error_msg_of r) then (a, r)
    else run_step exec a fuel

/-- The structured recovery data of `SPAgent._suggest_recovery`. -/
inductive RecoverySuggestion where
  | missing_prerequisite (missing_step required_file suggestion : String)
  | missing_file (context : String)
  | snapshot_not_found (context : String)
  | authentication_failed (config_issue : String)
  | validation_error (context : String)
  | unknown (failed_step : String)
  deriving Repr, DecidableEq

/-- Embeds `_suggest_recovery(failed_step, tool_result)`: the pattern checks
run in source order, so a message containing "not found" or "does not
exist" is classified as a missing file/prerequisite BEFORE the snapshot
check is reached. -/
def suggest_recovery (failed_step : String) (r : ToolResult) : RecoverySuggestion :=
  let error_msg := error_msg_of r
  if py_in "not found" (py_lower error_msg) || py_in "does not exist" (py_lower error_msg) then
    if py_in "last_search_results.json" error_msg then
      .missing_prerequisite "identify_error_llm" "last_search_results.json"
        "run_identify_error_first"
    else .missing_file "prerequisite_step_failed"
  else if py_in "snapshot" (py_lower error_msg) &&
      (py_in "not found" (py_lower error_msg) || py_in "exist" (py_lower error_msg)) then
    .snapshot_not_found "invalid_or_nonexistent_snapshot_id"
  else if py_in "auth" (py_lower error_msg) || py_in "CLIENT_SECRET" error_msg then
    .authentication_failed "CLIENT_SECRET"
  else if py_in "validation" (py_lower error_msg) || py_in "error" (py_lower failed_step) then
    .validation_error "snapshot_has_uncorrectable_errors"
  else .unknown failed_step

/-- One entry of `_execute_pipeline`'s `results` list. -/
structure StepRecord where
  step : String
  success : Bool
  attempts : Nat
  output : String
  error : String := ""
  deriving Repr, DecidableEq

/-- A validation message as read from `snapshot-validation.json`. -/
structure ValidationMsg where
  level : String
  deriving Repr, DecidableEq

/-- The `final_validation` dict of `_execute_pipeline`. -/
structure FinalValidation where
  errors : Nat
  warnings : Nat
  is_valid : Bool
  server_validated : Bool
  deriving Repr, DecidableEq

/-- Environment of one `_execute_pipeline` run: the tool outcome of each
(step name, attempt number) pair, whether a snapshot id was supplied, and
the storage contents read for the final validation (`upload-result.json`'s
`isSuccessfullyValidated` and `snapshot-validation.json`; `none` models a
missing file). -/
structure PipelineEnv where
  exec : String → Nat → ToolResult
  has_snapshot_id : Bool
  upload_validated : Option Bool
  validation_data : Option (List ValidationMsg)

/-- The result dict of `_execute_pipeline` / `execute_pipeline`. -/
structure PipelineResult where
  success : Bool
  pipeline : String
  completed_steps : List StepRecord
  failed_at : Option String := none
  error : String := ""
  recovery_suggestion : Option RecoverySuggestion := none
  final_validation : Option FinalValidation := none
  deriving Repr, DecidableEq

/-- The static pipeline definitions of `sp_tools_config.SP_PIPELINES`. -/
def sp_pipelines (pipeline_name : String) : Option (List String) :=
  if pipeline_name = "full_correction" then
    some ["validate_snapshot", "identify_error_llm", "generate_correction_llm",
      "validate_correction_schema_llm", "apply_correction", "update_snapshot",
      "validate_snapshot"]
  else if pipeline_name = "correction_from_validation" then
    some ["identify_error_llm", "generate_correction_llm",
      "validate_correction_schema_llm", "apply_correction", "update_snapshot",
      "validate_snapshot"]
  else if pipeline_name = "analyze_only" then
    some ["validate_snapshot", "identify_error_llm", "generate_correction_llm",
      "validate_correction_schema_llm"]
  else if pipeline_name = "apply_and_upload" then
    some ["apply_correction", "update_snapshot", "validate_snapshot"]
  else none

/-- The correction pipelines that iterate in `execute_pipeline`. -/
def is_correction_pipeline (pipeline_name : String) : Bool :=
  pipeline_name = "full_correction" || pipeline_name = "correction_from_validation"

/-- Error count of `snapshot-validation.json` contents (0 when missing). -/
def count_level (level : String) : Option (List ValidationMsg) → Nat
  | none => 0
  | some msgs => (msgs.filter (fun m => m.level = level)).length

/-- The final-validation read of `_execute_pipeline` after a successful
correction pipeline. -/
def read_final_validation (env : PipelineEnv) : FinalValidation :=
  let is_validated := env.upload_validated.getD false
  let error_count := count_level "ERROR" env.validation_data
  let warning_count := count_level "WARNING" env.validation_data
  { errors := error_count, warnings := warning_count,
    is_valid := error_count = 0, server_validated := is_validated }

/-- The step loop of `_execute_pipeline`: runs each step with up to
`max_retries = 2` retries; the first step that still fails stops the
pipeline with its recovery suggestion.  Returns
(success, records, failed_at, error, recovery). -/
def run_pipeline_steps (exec : String → Nat → ToolResult) :
    List String → Bool × List StepRecord × Option String × String × Option RecoverySuggestion
  | [] => (true, [], none, "", none)
  | step :: rest =>
    let ar := run_step (exec step) 0 2
    let attempts := ar.1
    let r := ar.2
    if r.success then
      let rec_entry : StepRecord :=
        { step := step, success := true, attempts := attempts, output := r.stdout }
      match run_pipeline_steps exec rest with
      | (ok, recs, f, e, rv) => (ok, rec_entry :: recs, f, e, rv)
    else
      let emsg := error_msg_of r
      (false,
       [{ step := step, success := false, attempts := attempts,
          output := r.stdout, error := emsg }],
       some step, emsg, some (suggest_recovery step r))

/-- Embeds `SPAgent._execute_pipeline(pipeline_name, snapshot_id)` for one
run: unknown pipelines fail immediately; otherwise the steps run in order
with per-step retries, and on overall success of a correction pipeline
with a snapshot id the final validation is read from storage. -/
def execute_pipeline_once (pipeline_name : String) (env : PipelineEnv) : PipelineResult :=
  match sp_pipelines pipeline_name with
  | none =>
      { success := false, pipeline := pipeline_name, completed_steps := [],
        error := "Unbekannte Pipeline: " ++ pipeline_name }
  | some steps =>
    match run_pipeline_steps env.exec steps with
    | (ok, recs, f, e, rv) =>
      if ok then
        { success := true, pipeline := pipeline_name, completed_steps := recs,
          final_validation :=
            if is_correction_pipeline pipeline_name && env.has_snapshot_id then
              some (read_final_validation env)
            else none }
      else
        { success := false, pipeline := pipeline_name, completed_steps := recs,
          failed_at := f, error := e, recovery_suggestion := rv }

/-- The `while True` convergence loop of `SPAgent.execute_pipeline`:
iteration numbers count from 1; the loop stops at once for non-correction
pipelines, failed runs or missing final validation, stops on zero
remaining errors, and otherwise re-runs until `max_iter` iterations.
`fuel` starts at `max_iter` and is never exhausted before the
`max_iter ≤ i` check fires. -/
def correction_loop (run : Nat → PipelineResult) (is_corr : Bool) (max_iter : Nat)
    (iteration : Nat) : Nat → Nat × PipelineResult
  | 0 => (iteration + 1, run (iteration + 1))
  | fuel + 1 =>
    let i := iteration + 1
    let r := run i
    if ¬ is_corr then (i, r)
    else if ¬ r.success then (i, r)
    else
      match r.final_validation with
      | none => (i, r)
      | some fv =>
        if fv.errors = 0 then (i, r)
        else if max_iter ≤ i then (i, r)
        else correction_loop run is_corr max_iter i fuel

/-- Embeds `SPAgent.execute_pipeline(pipeline_name, snapshot_id)` with
`MAX_CORRECTION_ITERATIONS = 5`: repeatedly runs `_execute_pipeline`
(iteration `i` running in environment `envs i`) and returns the pair
`(total_iterations, last_result)`. -/
def execute_pipeline (pipeline_name : String) (envs : Nat → PipelineEnv) :
    Nat × PipelineResult :=
  correction_loop (fun i => execute_pipeline_once pipeline_name (envs i))
    (is_correction_pipeline pipeline_name) 5 0 5

/-! ### Claim-side reachability relations -/

/-- The records (Python dicts) reachable by the recursive walks of
`identify_snapshot.py`: a dict is a record of itself, and records propagate
through dict values and list elements. -/
inductive SubRecord : Json → List (String × Json) → Prop where
  | here (kvs : List (String × Json)) : SubRecord (.obj kvs) kvs
  | inObj (kvs : List (String × Json)) (k : String) (v : Json)
      (r : List (String × Json)) :
      (k, v) ∈ kvs → SubRecord v r → SubRecord (.obj kvs) r
  | inArr (xs : List Json) (x : Json) (r : List (String × Json)) :
      x ∈ xs → SubRecord x r → SubRecord (.arr xs) r

/-- A string value occurring somewhere in a document, at a position the
recursive walks visit: directly as a dict value or list element, or deeper
inside a nested dict/list. -/
inductive HasStrValue : Json → String → Prop where
  | inObjHere (kvs : List (String × Json)) (k : String) (s : String) :
      (k, .str s) ∈ kvs → HasStrValue (.obj kvs) s
  | inObjDeep (kvs : List (String × Json)) (k : String) (v : Json) (s : String) :
      (k, v) ∈ kvs → HasStrValue v s → HasStrValue (.obj kvs) s
  | inArrHere (xs : List Json) (s : String) :
      (.str s) ∈ xs → HasStrValue (.arr xs) s
  | inArrDeep (xs : List Json) (x : Json) (s : String) :
      x ∈ xs → HasStrValue x s → HasStrValue (.arr xs) s

/-- What `search_empty_field` promises about a hit relative to a root
document: the hit's parent is a reachable record that CONTAINS the searched
field with an empty value, and the hit reports that field and value. -/
def EmptyHitOf (field_name : String) (root : Json) (hit : SearchHit) : Prop :=
  ∃ kvs v, hit.parent = .obj kvs ∧ SubRecord root kvs ∧
    jlookup kvs field_name = some v ∧ is_empty_value v = true ∧
    hit.value = v ∧ hit.key = some field_name

/-- The similarity score a returned hit carries (`0` when untagged), read
back as an exact rational. -/
def hit_score (h : SearchHit) : ℚ :=
  match h.similarity_score with
  | some f => f.toRat
  | none => 0

/-- What the fuzzy walk promises about a collected pair relative to a root
document: the hit wraps a nonempty string value occurring in the root, the
attached score is exactly `calculate_similarity_score`, and the score
reaches the `0.6` threshold. -/
def FuzzyHitOf (t : String) (root : Json) (pr : SearchHit × Frac) : Prop :=
  ∃ s, pr.1.value = Json.str s ∧ 0 < s.toList.length ∧
    pr.2 = calculate_similarity_score t s ∧
    Frac.ble min_similarity_06 pr.2 = true ∧ HasStrValue root s

/-! ### Concrete inputs used by witnesses and counterexamples -/

/-- A pipeline environment in which `validate_snapshot` fails on every
attempt with a document-not-found message and every other tool succeeds. -/
def doc_not_found_env : PipelineEnv where
  exec := fun step _attempt =>
    if step = "validate_snapshot" then
      { success := false, stderr := "Error: Snapshot does not exist" }
    else { success := true }
  has_snapshot_id := true
  upload_validated := none
  validation_data := none

/-- A pipeline environment in which every tool succeeds and the stored
validation keeps reporting exactly one ERROR. -/
def one_error_env : PipelineEnv where
  exec := fun _step _attempt => { success := true }
  has_snapshot_id := true
  upload_validated := some true
  validation_data := some [{ level := "ERROR" }, { level := "WARNING" }]

/-- A pipeline environment in which every tool succeeds and the stored
validation reports no ERROR entries. -/
def zero_error_env : PipelineEnv where
  exec := fun _step _attempt => { success := true }
  has_snapshot_id := true
  upload_validated := some true
  validation_data := some [{ level := "WARNING" }]

/-- The tool outcome of the ProposalGate step after retry exhaustion:
`sys.exit(1)` fails the subprocess with nothing on stderr (all the
diagnostics go to stdout). -/
def gate_exhausted_exec : Nat → ToolResult := fun _attempt => { success := false }

/-- A document whose single `demands` record does not contain the field
`demandId` at all. -/
def missing_field_doc : Json :=
  .obj [("demands", .arr [.obj [("other", .num 1)]])]

/-- A document for the fuzzy-search scenario of the spec: the candidate
strings `ABD123` and `XYZ999`, with no exact occurrence of `ABC123`. -/
def fuzzy_example_doc : Json :=
  .obj [("demands", .arr [.str "ABD123", .str "XYZ999"])]

/-- A document whose `workerQualifications` top-level collection is empty. -/
def empty_collection_doc : Json :=
  .obj [("workerQualifications", .arr [])]

/-- A reference snapshot that DOES contain data for
`workerQualifications`. -/
def reference_snapshot_doc : Json :=
  .obj [("workerQualifications", .arr [.obj [("qualification", .str "Q1")]])]

/-- A document with one `demands` record carrying the field `x`. -/
def update_example_doc : List (String × Json) :=
  [("demands", .arr [.obj [("x", .num 0)]])]

/-- A document with a nested-array record (`equipment[0].predecessors`). -/
def nested_example_doc : List (String × Json) :=
  [("equipment", Json.arr [Json.obj
    [("predecessors", Json.arr [Json.str "E1", Json.str "E2"]),
     ("name", Json.str "mixer")]])]

/-! ### Helper theorems on fractions and substring containment -/

theorem Frac.ble_iff (a b : Frac) : Frac.ble a b = true ↔ a.toRat ≤ b.toRat := by
  unfold Frac.ble Frac.toRat
  rw [decide_eq_true_iff,
    div_le_div_iff₀ (by exact_mod_cast a.den.2) (by exact_mod_cast b.den.2)]
  constructor <;> intro h <;> exact_mod_cast h

theorem Frac.ble_total (a b : Frac) : Frac.ble a b = true ∨ Frac.ble b a = true := by
  rw [Frac.ble_iff, Frac.ble_iff]; exact le_total _ _

theorem Frac.ble_trans {a b c : Frac} (h1 : Frac.ble a b = true)
    (h2 : Frac.ble b c = true) : Frac.ble a c = true := by
  rw [Frac.ble_iff] at *; exact le_trans h1 h2

theorem list_in_iff (needle hay : List Char) :
    list_in needle hay = true ↔ needle <:+: hay := by
  induction hay with
  | nil =>
    simp only [list_in, List.isEmpty_iff]
    constructor
    · intro h; simp [h]
    · intro h; exact List.eq_nil_of_infix_nil h
  | cons c rest ih =>
    simp only [list_in, Bool.or_eq_true, ih, List.infix_cons_iff,
      List.isPrefixOf_iff_prefix]

theorem py_in_trans {a b c : String} (h1 : py_in a b = true)
    (h2 : py_in b c = true) : py_in a c = true := by
  unfold py_in at *
  rw [list_in_iff] at *
  exact h1.trans h2

theorem py_in_lower {a b : String} (h : py_in a b = true) :
    py_in (py_lower a) (py_lower b) = true := by
  unfold py_in py_lower at *
  rw [list_in_iff] at *
  simpa using h.map Char.toLower

theorem py_in_refl (a : String) : py_in a a = true := by
  unfold py_in; rw [list_in_iff]

theorem except_bind_ok {epsilon alpha beta : Type} (a : alpha)
    (f : alpha → Except epsilon beta) :
    (Except.ok (ε := epsilon) a >>= f) = f a := rfl

/-! ### Helper theorems on dict assignment -/

theorem jlookup_jset_self (l : List (String × Json)) (k : String) (v : Json) :
    jlookup (jset l k v) k = some v := by
  induction l with
  | nil => simp [jset, jlookup]
  | cons kv rest ih =>
    obtain ⟨k', w⟩ := kv
    by_cases h : k' = k <;> simp [jset, jlookup, h, ih]

theorem jset_jset_self (l : List (String × Json)) (k : String) (v w : Json) :
    jset (jset l k v) k w = jset l k w := by
  induction l with
  | nil => simp [jset]
  | cons kv rest ih =>
    obtain ⟨k', u⟩ := kv
    by_cases h : k' = k <;> simp [jset, h, ih]

theorem jset_absent (l : List (String × Json)) (k : String) (v : Json)
    (h : jlookup l k = none) : jset l k v = l ++ [(k, v)] := by
  induction l with
  | nil => simp [jset]
  | cons kv rest ih =>
    obtain ⟨k', u⟩ := kv
    by_cases hk : k' = k
    · simp [jlookup, hk] at h
    · simp [jlookup, hk] at h
      simp [jset, hk, ih h]

/-! ### C9 -/

theorem remove_matching_nil_pred (items : List Json) :
    remove_matching [] items =
      match items.find? Json.isObj with
      | some r => some (r, items.eraseP Json.isObj)
      | none => none := by
  induction items with
  | nil => rfl
  | cons x rest ih =>
    cases x with
    | obj kvs =>
      simp [remove_matching, dict_matches, List.find?_cons, Json.isObj, List.eraseP_cons]
    | null =>
      simp only [remove_matching, ih, List.find?_cons, Json.isObj, List.eraseP_cons]
      cases rest.find? Json.isObj <;> simp
    | bool b =>
      simp only [remove_matching, ih, List.find?_cons, Json.isObj, List.eraseP_cons]
      cases rest.find? Json.isObj <;> simp
    | num n =>
      simp only [remove_matching, ih, List.find?_cons, Json.isObj, List.eraseP_cons]
      cases rest.find? Json.isObj <;> simp
    | str s =>
      simp only [remove_matching, ih, List.find?_cons, Json.isObj, List.eraseP_cons]
      cases rest.find? Json.isObj <;> simp
    | arr xs =>
      simp only [remove_matching, ih, List.find?_cons, Json.isObj, List.eraseP_cons]
      cases rest.find? Json.isObj <;> simp

/-- C9: calling `remove_from_array` with a bare-collection path, no explicit
index and an EMPTY key-value predicate does not fail: the all-fields-match
condition is vacuously true on every dict, so the first record of the
collection that is a dict is removed and returned (non-dict records are
skipped by the scan). -/
theorem remove_empty_predicate_first_record
    (data : List (String × Json)) (target_path array_name : String)
    (items : List Json) (r : Json)
    (hparse : parse_target_path target_path = .ok (array_name, none, none))
    (hlook : jlookup data array_name = some (.arr items))
    (hfind : items.find? Json.isObj = some r) :
    remove_from_array data target_path (.obj []) =
      .ok (jset data array_name (.arr (items.eraseP Json.isObj)), r) := by
  simp [remove_from_array, hparse, except_bind_ok, hlook, remove_matching_nil_pred, hfind]

/-- Witness for C9 at a concrete document: the collection
`[1, {"a": null}, {}]` loses its first dict record `{"a": null}`. -/
theorem remove_empty_predicate_first_record_witness :
    remove_from_array [("demands", Json.arr [Json.num 1, Json.obj [("a", Json.null)], Json.obj []])]
        "demands" (Json.obj []) =
      .ok ([("demands", Json.arr [Json.num 1, Json.obj []])], Json.obj [("a", Json.null)]) :=
  remove_empty_predicate_first_record
    [("demands", Json.arr [Json.num 1, Json.obj [("a", Json.null)], Json.obj []])]
    "demands" "demands" [Json.num 1, Json.obj [("a", Json.null)], Json.obj []]
    (Json.obj [("a", Json.null)]) rfl rfl rfl

/-! ### C10 -/

/-- C10: for a resolvable plain `collection[i].field` path whose record does
not contain the field, `apply_single_update` succeeds, creates the field at
the end of the record and reports the old value as null; for the
nested-array form `collection[i].nestedField[j]` the update fails with a
KeyError when the nested field is absent and a TypeError when it is not a
list. -/
theorem update_field_absent_vs_nested
    (data : List (String × Json)) (array_name : String)
    (items : List Json) (i : Nat) (kvs : List (String × Json)) (v : Json)
    (hlook : jlookup data array_name = some (.arr items))
    (hrec : items[i]? = some (.obj kvs)) :
    (∀ tp f, parse_target_path tp = .ok (array_name, some i, some (.plain f)) →
      jlookup kvs f = none →
      apply_single_update data tp v =
        .ok (jset data array_name
            (.arr (items.set i (.obj (kvs ++ [(f, json_fix_string v)])))),
          .null, json_fix_string v))
    ∧ (∀ tp f j, parse_target_path tp = .ok (array_name, some i, some (.nested f j)) →
        ((jlookup kvs f = none →
            apply_single_update data tp v = .error (.keyErr ("Nested field '" ++ f ++
              "' not found in " ++ array_name ++ "[" ++ toString i ++ "]")))
        ∧ (∀ w, jlookup kvs f = some w → w.isArr = false →
            apply_single_update data tp v = .error (.typeErr ("Nested field '" ++ f ++
              "' in " ++ array_name ++ "[" ++ toString i ++ "] is not an array"))))) := by
  obtain ⟨hi, hget⟩ := List.getElem?_eq_some_iff.mp hrec
  constructor
  · intro tp f hparse habs
    simp only [apply_single_update, hparse, except_bind_ok, hlook]
    rw [dif_pos hi]
    simp only [hget, apply_update_record, habs, Option.getD_none,
      jset_absent kvs f _ habs]
  · intro tp f j hparse
    constructor
    · intro habs
      simp only [apply_single_update, hparse, except_bind_ok, hlook]
      rw [dif_pos hi]
      simp only [hget, apply_update_record, habs]
    · intro w hw hnarr
      simp only [apply_single_update, hparse, except_bind_ok, hlook]
      rw [dif_pos hi]
      simp only [hget, apply_update_record, hw]
      cases w with
      | arr xs => simp [Json.isArr] at hnarr
      | null => rfl
      | bool b => rfl
      | num n => rfl
      | str s => rfl
      | obj o => rfl

/-! ### Inversion of a successful apply_single_update -/

theorem except_bind_err {epsilon alpha beta : Type} (e : epsilon)
    (f : alpha → Except epsilon beta) :
    (Except.error (α := alpha) e >>= f) = Except.error e := rfl

theorem apply_update_record_ok_inv {an : String} {i : Nat} {fs : FieldSpec}
    {v' record record' old : Json}
    (h : apply_update_record an i fs v' record = .ok (record', old)) :
    ∃ kvs, record = .obj kvs ∧
      ((∃ f, fs = .plain f ∧ record' = .obj (jset kvs f v') ∧
          old = (jlookup kvs f).getD .null)
      ∨ (∃ f j nitems, fs = .nested f j ∧ jlookup kvs f = some (.arr nitems) ∧
          j < nitems.length ∧ record' = .obj (jset kvs f (.arr (nitems.set j v'))) ∧
          old = nitems.getD j .null)) := by
  cases record with
  | obj kvs =>
    cases fs with
    | plain f =>
      simp only [apply_update_record, Except.ok.injEq, Prod.mk.injEq] at h
      exact ⟨kvs, rfl, .inl ⟨f, rfl, h.1.symm, h.2.symm⟩⟩
    | nested f j =>
      rcases hn : jlookup kvs f with _ | nval
      · simp [apply_update_record, hn] at h
      cases nval with
      | arr nitems =>
        by_cases hj : j < nitems.length
        · simp only [apply_update_record, hn, if_pos hj, Except.ok.injEq,
            Prod.mk.injEq] at h
          exact ⟨kvs, rfl, .inr ⟨f, j, nitems, rfl, hn, hj, h.1.symm, h.2.symm⟩⟩
        · simp [apply_update_record, hn, if_neg hj] at h
      | null => simp [apply_update_record, hn] at h
      | bool b => simp [apply_update_record, hn] at h
      | num n => simp [apply_update_record, hn] at h
      | str s => simp [apply_update_record, hn] at h
      | obj o => simp [apply_update_record, hn] at h
  | null => cases fs <;> simp [apply_update_record] at h
  | bool b => cases fs <;> simp [apply_update_record] at h
  | num n => cases fs <;> simp [apply_update_record] at h
  | str s => cases fs <;> simp [apply_update_record] at h
  | arr a => cases fs <;> simp [apply_update_record] at h

theorem apply_single_update_ok_inv
    (data : List (String × Json)) (tp : String) (v : Json)
    (d1 : List (String × Json)) (old w : Json)
    (h : apply_single_update data tp v = .ok (d1, old, w)) :
    ∃ an i fs items record_updated,
      parse_target_path tp = .ok (an, some i, some fs)
      ∧ jlookup data an = some (.arr items)
      ∧ ∃ hi : i < items.length,
          apply_update_record an i fs (json_fix_string v) items[i] =
            .ok (record_updated, old)
          ∧ w = json_fix_string v
          ∧ d1 = jset data an (.arr (items.set i record_updated)) := by
  rcases hp : parse_target_path tp with msg | ⟨an, i?, f?⟩
  · simp [apply_single_update, hp, except_bind_err] at h
  rcases i? with _ | i
  · simp [apply_single_update, hp, except_bind_ok] at h
  rcases f? with _ | fs
  · simp [apply_single_update, hp, except_bind_ok] at h
  rcases hl : jlookup data an with _ | col
  · simp [apply_single_update, hp, except_bind_ok, hl] at h
  cases col with
  | arr items =>
    by_cases hi : i < items.length
    · rcases hr : apply_update_record an i fs (json_fix_string v) items[i]
        with e | ⟨record_updated, old'⟩
      · simp [apply_single_update, hp, except_bind_ok, hl, dif_pos hi, hr] at h
      · simp only [apply_single_update, hp, except_bind_ok, hl, dif_pos hi, hr,
          Except.ok.injEq, Prod.mk.injEq] at h
        exact ⟨an, i, fs, items, record_updated, rfl, hl, hi,
          by rw [hr, h.2.1], h.2.2.symm, h.1.symm⟩
    · simp [apply_single_update, hp, except_bind_ok, hl, dif_neg hi] at h
  | null => simp [apply_single_update, hp, except_bind_ok, hl] at h
  | bool b => simp [apply_single_update, hp, except_bind_ok, hl] at h
  | num n => simp [apply_single_update, hp, except_bind_ok, hl] at h
  | str s => simp [apply_single_update, hp, except_bind_ok, hl] at h
  | obj o => simp [apply_single_update, hp, except_bind_ok, hl] at h

/-! ### C8 -/

/-- C8: for every updateField proposal whose target path resolves (the first
application succeeds), applying the proposal a second time leaves the
document unchanged: the second run returns the same document, and reports
the previously written value as both old and new value. -/
theorem update_field_idempotent
    (data : List (String × Json)) (target_path : String) (v : Json)
    (d1 : List (String × Json)) (old newv : Json)
    (h : apply_single_update data target_path v = .ok (d1, old, newv)) :
    apply_single_update d1 target_path v = .ok (d1, newv, newv) := by
  obtain ⟨an, i, fs, items, record_updated, hp, hl, hi, hr, hw, hd⟩ :=
    apply_single_update_ok_inv _ _ _ _ _ _ h
  obtain ⟨kvs, hrec, hcase⟩ := apply_update_record_ok_inv hr
  subst hw hd
  have hlen : i < (items.set i record_updated).length := by simpa using hi
  have hgot : (items.set i record_updated)[i] = record_updated := by
    simp [List.getElem_set]
  simp only [apply_single_update, hp, except_bind_ok, jlookup_jset_self]
  rw [dif_pos hlen]
  rcases hcase with ⟨f, hfs, hrec', hold⟩ | ⟨f, j, nitems, hfs, hn, hj, hrec', hold⟩
  · subst hfs hrec'
    simp only [hgot, apply_update_record, jlookup_jset_self, Option.getD_some,
      jset_jset_self, List.set_set]
  · subst hfs hrec'
    have hjlen : j < (nitems.set j (json_fix_string v)).length := by simpa using hj
    simp only [hgot, apply_update_record, jlookup_jset_self, if_pos hjlen,
      jset_jset_self, List.set_set, List.getD_eq_getElem?_getD, List.getElem?_set,
      if_pos hj, Option.getD_some, ite_self]
    simp

/-- Witness for C8 at a concrete document: setting `demands[0].x` to 5 twice
equals setting it once. -/
theorem update_field_idempotent_witness :
    apply_single_update update_example_doc "demands[0].x" (Json.num 5) =
      .ok ([("demands", Json.arr [Json.obj [("x", Json.num 5)]])], Json.num 0, Json.num 5)
    ∧ apply_single_update [("demands", Json.arr [Json.obj [("x", Json.num 5)]])]
        "demands[0].x" (Json.num 5) =
      .ok ([("demands", Json.arr [Json.obj [("x", Json.num 5)]])], Json.num 5, Json.num 5) :=
  ⟨rfl, update_field_idempotent update_example_doc "demands[0].x" (Json.num 5) _ _ _ rfl⟩

/-- Witness for C10 at concrete documents: the plain form creates the absent
field `y` reporting old value null; the nested form fails on an absent
nested field and on a non-list nested field. -/
theorem update_field_absent_vs_nested_witness :
    apply_single_update update_example_doc "demands[0].y" (Json.num 7) =
      .ok ([("demands", Json.arr [Json.obj [("x", Json.num 0), ("y", Json.num 7)]])],
        Json.null, Json.num 7)
    ∧ apply_single_update nested_example_doc "equipment[0].successors[0]" (Json.str "E9") =
      .error (.keyErr "Nested field 'successors' not found in equipment[0]")
    ∧ apply_single_update nested_example_doc "equipment[0].name[0]" (Json.str "E9") =
      .error (.typeErr "Nested field 'name' in equipment[0] is not an array") := by
  refine ⟨?_, ?_, ?_⟩
  · exact (update_field_absent_vs_nested update_example_doc "demands"
      [Json.obj [("x", Json.num 0)]] 0 [("x", Json.num 0)] (Json.num 7) rfl rfl).1
      "demands[0].y" "y" rfl rfl
  · exact ((update_field_absent_vs_nested nested_example_doc "equipment"
      [Json.obj [("predecessors", Json.arr [Json.str "E1", Json.str "E2"]),
        ("name", Json.str "mixer")]] 0
      [("predecessors", Json.arr [Json.str "E1", Json.str "E2"]),
        ("name", Json.str "mixer")] (Json.str "E9") rfl rfl).2
      "equipment[0].successors[0]" "successors" 0 rfl).1 rfl
  · exact ((update_field_absent_vs_nested nested_example_doc "equipment"
      [Json.obj [("predecessors", Json.arr [Json.str "E1", Json.str "E2"]),
        ("name", Json.str "mixer")]] 0
      [("predecessors", Json.arr [Json.str "E1", Json.str "E2"]),
        ("name", Json.str "mixer")] (Json.str "E9") rfl rfl).2
      "equipment[0].name[0]" "name" 0 rfl).2 (Json.str "mixer") rfl rfl

/-! ### C7 -/

/-- C7 counterexample: the string `" [1]"` parses as a JSON array under
`json.loads`, yet `apply_single_update` writes the original string into the
document, because the guard only fires when the string's FIRST character is
a bracket or brace and `" [1]"` starts with a space. -/
theorem json_string_guard_counterexample :
    json_loads " [1]" = some (Json.arr [Json.num 1])
    ∧ apply_single_update update_example_doc "demands[0].x" (Json.str " [1]") =
        .ok ([("demands", Json.arr [Json.obj [("x", Json.str " [1]")]])],
          Json.num 0, Json.str " [1]")
    ∧ Json.str " [1]" ≠ Json.arr [Json.num 1] :=
  ⟨rfl, rfl, fun h => Json.noConfusion h⟩

/-- C7 amended: the guard fires only for strings whose first character is
`[` or the opening brace; such strings are replaced by their parsed
structure when `json.loads` succeeds and kept as-is otherwise; all other
strings (including JSON-parsable ones with leading whitespace) are written
unchanged, and the value a successful `apply_single_update` writes is
exactly the guard's output. -/
theorem json_string_guard_characterization (s : String) :
    ((starts_with_char s '[' || starts_with_char s lbrace) = false →
      json_fix_string (.str s) = .str s)
    ∧ (∀ v, (starts_with_char s '[' || starts_with_char s lbrace) = true →
        json_loads s = some v → json_fix_string (.str s) = v)
    ∧ (json_loads s = none → json_fix_string (.str s) = .str s)
    ∧ (∀ (data d1 : List (String × Json)) (tp : String) (old w : Json),
        apply_single_update data tp (.str s) = .ok (d1, old, w) →
        w = json_fix_string (.str s)) := by
  refine ⟨?_, ?_, ?_, ?_⟩
  · intro hcond; simp [json_fix_string, hcond]
  · intro v hcond hload; simp [json_fix_string, hcond, hload]
  · intro hload
    cases hcond : (starts_with_char s '[' || starts_with_char s lbrace) <;>
      simp [json_fix_string, hcond, hload]
  · intro data d1 tp old w h
    obtain ⟨an, i, fs, items, ru, hp, hl, hi, hr, hw, hd⟩ :=
      apply_single_update_ok_inv _ _ _ _ _ _ h
    exact hw

/-- Witness for C7's amended characterization at concrete strings. -/
theorem json_string_guard_characterization_witness :
    json_fix_string (Json.str "[2]") = Json.arr [Json.num 2]
    ∧ json_fix_string (Json.str "xy") = Json.str "xy" :=
  ⟨(json_string_guard_characterization "[2]").2.1 (Json.arr [Json.num 2]) rfl rfl,
   (json_string_guard_characterization "xy").1 rfl⟩

/-! ### C4 -/

/-- C4 counterexample: after the 5th failed retry the gate exits with code 1
and an EMPTY stderr (its diagnostics go to stdout), and the PipelineExecutor
does NOT classify that failure as non-retryable: the empty message matches
no terminal condition, so the failed gate step is re-attempted and runs 3
times, with recovery classified as `unknown`, contradicting the claim that
the step is not re-attempted. -/
theorem proposal_gate_exhaustion_retried_counterexample :
    validate_with_retry (fun _ : Unit => false) (fun _ => ()) () = (none, 5)
    ∧ is_non_retryable "" = false
    ∧ run_step gate_exhausted_exec 0 2 = (3, { success := false })
    ∧ run_pipeline_steps (fun _ _ => { success := false })
        ["validate_correction_schema_llm"] =
      (false, [⟨"validate_correction_schema_llm", false, 3, "", ""⟩],
        some "validate_correction_schema_llm", "",
        some (.unknown "validate_correction_schema_llm")) :=
  ⟨rfl, rfl, rfl, rfl⟩

/-- C4 amended: the ProposalGate re-requests a corrected proposal at most 5
times and gives up with a process failure after the 5th retry is invalid;
but the resulting step failure (empty stderr) matches no terminal condition
of the PipelineExecutor, which therefore DOES re-attempt the gate step, up
to the full 3 attempts. -/
theorem proposal_gate_retry_bound {P : Type} (valid : P → Bool) (llm : Nat → P) (p : P)
    (hall : ∀ q, valid q = false) :
    validate_with_retry valid llm p = (none, 5)
    ∧ is_non_retryable "" = false
    ∧ (∀ exec : Nat → ToolResult, (∀ a, exec a = { success := false }) →
        run_step exec 0 2 = (3, { success := false })) := by
  refine ⟨?_, rfl, ?_⟩
  · simp [validate_with_retry, validate_retry_loop, hall]
  · intro exec hx
    simp [run_step, hx, is_non_retryable, error_msg_of, non_retryable_errors,
      py_in, list_in, List.isPrefixOf]

/-- Witness for C4's amended statement: an always-invalid proposal exhausts
exactly 5 LLM re-requests, and an always-failing gate step is attempted 3
times by the pipeline. -/
theorem proposal_gate_retry_bound_witness :
    validate_with_retry (fun _ : Bool => false) (fun _ => true) false = (none, 5)
    ∧ run_step gate_exhausted_exec 0 2 = (3, { success := false }) := by
  obtain ⟨h1, _h2, h3⟩ :=
    proposal_gate_retry_bound (fun _ : Bool => false) (fun _ => true) false (fun _ => rfl)
  exact ⟨h1, h3 gate_exhausted_exec (fun _ => rfl)⟩

/-! ### C2 -/

theorem correction_loop_nonzero (run : Nat → PipelineResult)
    (hgood : ∀ i, 1 ≤ i → i ≤ 5 → (run i).success = true ∧
      ∃ fv, (run i).final_validation = some fv ∧ fv.errors ≠ 0) :
    ∀ fuel iteration, iteration + fuel = 5 → 0 < fuel →
      correction_loop run true 5 iteration fuel = (5, run 5) := by
  intro fuel
  induction fuel with
  | zero => intro iteration _ hpos; omega
  | succ n ih =>
    intro iteration hsum _
    obtain ⟨hs, fv, hfv, hne⟩ := hgood (iteration + 1) (by omega) (by omega)
    by_cases hmax : 5 ≤ iteration + 1
    · have h5 : iteration + 1 = 5 := by omega
      simp only [correction_loop, hs, hfv, hne, hmax]
      simp [h5]
    · simp only [correction_loop, hs, hfv, hne, hmax]
      exact ih (iteration + 1) (by omega) (by omega)

theorem correction_loop_stops (run : Nat → PipelineResult) (k : Nat)
    (hk1 : 1 ≤ k) (hk5 : k ≤ 5)
    (hgood : ∀ i, 1 ≤ i → i < k → (run i).success = true ∧
      ∃ fv, (run i).final_validation = some fv ∧ fv.errors ≠ 0)
    (hks : (run k).success = true)
    (hfv : ∃ fv, (run k).final_validation = some fv ∧ fv.errors = 0) :
    ∀ fuel iteration, iteration + fuel = 5 → iteration < k →
      correction_loop run true 5 iteration fuel = (k, run k) := by
  intro fuel
  induction fuel with
  | zero => intro iteration hsum hlt; omega
  | succ n ih =>
    intro iteration hsum hlt
    by_cases hik : iteration + 1 = k
    · obtain ⟨fv, hfvk, hz⟩ := hfv
      subst hik
      simp only [correction_loop, hks, hfvk, hz]
      simp
    · obtain ⟨hs, fv, hfvi, hne⟩ := hgood (iteration + 1) (by omega) (by omega)
      have hmax : ¬ 5 ≤ iteration + 1 := by omega
      simp only [correction_loop, hs, hfvi, hne, hmax]
      exact ih (iteration + 1) (by omega) (by omega)

/-- C2: for a correction pipeline whose runs always succeed with a non-zero
remaining ERROR count, the convergence loop executes the pipeline exactly 5
times and returns `total_iterations = 5` with the 5th run's result (which
carries the remaining error count); and if some run reports zero remaining
ERRORs, the loop stops immediately after that run. -/
theorem convergence_bound_five_iterations (pipeline_name : String)
    (envs : Nat → PipelineEnv)
    (hcorr : is_correction_pipeline pipeline_name = true) :
    ((∀ i, 1 ≤ i → i ≤ 5 →
        (execute_pipeline_once pipeline_name (envs i)).success = true ∧
        ∃ fv, (execute_pipeline_once pipeline_name (envs i)).final_validation = some fv ∧
          fv.errors ≠ 0) →
      execute_pipeline pipeline_name envs =
        (5, execute_pipeline_once pipeline_name (envs 5)))
    ∧ (∀ k, 1 ≤ k → k ≤ 5 →
        (∀ i, 1 ≤ i → i < k →
          (execute_pipeline_once pipeline_name (envs i)).success = true ∧
          ∃ fv, (execute_pipeline_once pipeline_name (envs i)).final_validation = some fv ∧
            fv.errors ≠ 0) →
        (execute_pipeline_once pipeline_name (envs k)).success = true →
        (∃ fv, (execute_pipeline_once pipeline_name (envs k)).final_validation = some fv ∧
          fv.errors = 0) →
        execute_pipeline pipeline_name envs =
          (k, execute_pipeline_once pipeline_name (envs k))) := by
  constructor
  · intro hgood
    unfold execute_pipeline
    rw [hcorr]
    exact correction_loop_nonzero _ hgood 5 0 rfl (by omega)
  · intro k hk1 hk5 hgood hks hfv
    unfold execute_pipeline
    rw [hcorr]
    exact correction_loop_stops _ k hk1 hk5 hgood hks hfv 5 0 rfl (by omega)

/-- Witness for C2: with one persistent ERROR the loop runs 5 times; when
the first run already reports zero ERRORs it stops after iteration 1. -/
theorem convergence_bound_five_iterations_witness :
    execute_pipeline "full_correction" (fun _ => one_error_env) =
      (5, execute_pipeline_once "full_correction" one_error_env)
    ∧ execute_pipeline "full_correction" (fun _ => zero_error_env) =
      (1, execute_pipeline_once "full_correction" zero_error_env) := by
  constructor
  · exact (convergence_bound_five_iterations "full_correction" (fun _ => one_error_env)
      rfl).1 (fun i _ _ => ⟨rfl, ⟨_, rfl, by decide⟩⟩)
  · exact (convergence_bound_five_iterations "full_correction" (fun _ => zero_error_env)
      rfl).2 1 (by omega) (by omega) (fun i h1 hlt => absurd (by omega : (1:Nat) ≤ 0) (by omega))
      rfl ⟨_, rfl, rfl⟩

/-! ### C1 -/

theorem run_step_doc_not_found (exec1 : Nat → ToolResult)
    (hfail : (exec1 1).success = false)
    (hmsg : py_in "Snapshot does not exist" (error_msg_of (exec1 1)) = true) :
    run_step exec1 0 2 = (1, exec1 1) := by
  have hnr : is_non_retryable (error_msg_of (exec1 1)) = true := by
    simp only [is_non_retryable, non_retryable_errors, List.any_cons, List.any_nil,
      Bool.or_eq_true]
    exact .inr (.inl hmsg)
  simp [run_step, hfail, hnr]

theorem suggest_recovery_doc_not_found (step : String) (r : ToolResult)
    (hmsg : py_in "Snapshot does not exist" (error_msg_of r) = true)
    (hnotjson : py_in "last_search_results.json" (error_msg_of r) = false) :
    suggest_recovery step r = .missing_file "prerequisite_step_failed" := by
  have h1 : py_in "does not exist" (py_lower (error_msg_of r)) = true :=
    py_in_trans (by decide) (py_in_lower hmsg)
  simp [suggest_recovery, h1, hnotjson]

theorem run_pipeline_steps_doc_not_found (exec : String → Nat → ToolResult) :
    ∀ (steps : List String) (k : Nat) (hk : k < steps.length),
    (∀ j (hj : j < k), ((run_step (exec (steps.get ⟨j, by omega⟩)) 0 2).2).success = true) →
    (exec (steps.get ⟨k, hk⟩) 1).success = false →
    py_in "Snapshot does not exist" (error_msg_of (exec (steps.get ⟨k, hk⟩) 1)) = true →
    py_in "last_search_results.json" (error_msg_of (exec (steps.get ⟨k, hk⟩) 1)) = false →
    ∃ recs, run_pipeline_steps exec steps =
      (false, recs, some (steps.get ⟨k, hk⟩),
        error_msg_of (exec (steps.get ⟨k, hk⟩) 1),
        some (.missing_file "prerequisite_step_failed"))
      ∧ recs.length = k + 1
      ∧ recs.getLast? = some ⟨steps.get ⟨k, hk⟩, false, 1,
          (exec (steps.get ⟨k, hk⟩) 1).stdout,
          error_msg_of (exec (steps.get ⟨k, hk⟩) 1)⟩
  | [], k, hk => by simp at hk
  | s :: rest, 0, hk => by
    intro _hpre hfail hmsg hnotjson
    have hfail' : (exec s 1).success = false := hfail
    have hmsg' : py_in "Snapshot does not exist" (error_msg_of (exec s 1)) = true := hmsg
    have hnotjson' : py_in "last_search_results.json" (error_msg_of (exec s 1)) = false :=
      hnotjson
    have hrs : run_step (exec s) 0 2 = (1, exec s 1) :=
      run_step_doc_not_found (exec s) hfail' hmsg'
    refine ⟨[⟨s, false, 1, (exec s 1).stdout, error_msg_of (exec s 1)⟩], ?_, rfl, rfl⟩
    simp [run_pipeline_steps, hrs, hfail',
      suggest_recovery_doc_not_found s (exec s 1) hmsg' hnotjson']
  | s :: rest, k + 1, hk => by
    intro hpre hfail hmsg hnotjson
    have hs0 : ((run_step (exec s) 0 2).2).success = true := hpre 0 (by omega)
    obtain ⟨recs, hrun, hlen, hlast⟩ :=
      run_pipeline_steps_doc_not_found exec rest k (by simpa using hk)
        (fun j hj => hpre (j + 1) (by omega)) hfail hmsg hnotjson
    refine ⟨⟨s, true, (run_step (exec s) 0 2).1,
        ((run_step (exec s) 0 2).2).stdout, ""⟩ :: recs, ?_, by simp [hlen], ?_⟩
    · simp [run_pipeline_steps, hs0, hrun, List.get_cons_succ]
    · rcases recs with _ | ⟨r0, rest'⟩
      · simp at hlen
      · rw [List.getLast?_cons_cons]
        exact hlast

/-- C1 amended: a pipeline step whose first attempt fails with a message
containing the terminal condition "Snapshot does not exist" is attempted
exactly once and halts the pipeline at that step; but because
`_suggest_recovery` tests the missing-file patterns ("not found" /
"does not exist") BEFORE the snapshot branch, the recovery suggestion is
`missing_file{prerequisite_step_failed}`, not `snapshot_not_found`
(documentNotFound); the snapshot branch is shadowed for such messages. -/
theorem sp_agent_doc_not_found_short_circuit (pipeline_name : String)
    (env : PipelineEnv) (steps : List String) (k : Nat)
    (hsp : sp_pipelines pipeline_name = some steps) (hk : k < steps.length)
    (hpre : ∀ j (hj : j < k),
      ((run_step (env.exec (steps.get ⟨j, by omega⟩)) 0 2).2).success = true)
    (hfail : (env.exec (steps.get ⟨k, hk⟩) 1).success = false)
    (hmsg : py_in "Snapshot does not exist"
      (error_msg_of (env.exec (steps.get ⟨k, hk⟩) 1)) = true)
    (hnotjson : py_in "last_search_results.json"
      (error_msg_of (env.exec (steps.get ⟨k, hk⟩) 1)) = false) :
    (execute_pipeline_once pipeline_name env).success = false
    ∧ (execute_pipeline_once pipeline_name env).failed_at = some (steps.get ⟨k, hk⟩)
    ∧ (execute_pipeline_once pipeline_name env).recovery_suggestion =
        some (.missing_file "prerequisite_step_failed")
    ∧ (execute_pipeline_once pipeline_name env).completed_steps.length = k + 1
    ∧ (execute_pipeline_once pipeline_name env).completed_steps.getLast? =
        some ⟨steps.get ⟨k, hk⟩, false, 1,
          (env.exec (steps.get ⟨k, hk⟩) 1).stdout,
          error_msg_of (env.exec (steps.get ⟨k, hk⟩) 1)⟩ := by
  obtain ⟨recs, hrun, hlen, hlast⟩ :=
    run_pipeline_steps_doc_not_found env.exec steps k hk hpre hfail hmsg hnotjson
  simp only [execute_pipeline_once, hsp, hrun]
  exact ⟨rfl, rfl, rfl, hlen, hlast⟩

/-- C1 counterexample: in a run of the full-correction pipeline whose first
step fails on its first attempt with the terminal message
"Error: Snapshot does not exist", the step is attempted exactly once and
the pipeline halts there — but the recovery suggestion is
`missing_file{prerequisite_step_failed}`, NOT the snapshot_not_found
(documentNotFound) variant the claim requires, because `_suggest_recovery`
matches "does not exist" against the missing-file patterns first. -/
theorem sp_agent_doc_not_found_counterexample :
    (execute_pipeline_once "full_correction" doc_not_found_env).success = false
    ∧ (execute_pipeline_once "full_correction" doc_not_found_env).failed_at =
        some "validate_snapshot"
    ∧ (execute_pipeline_once "full_correction" doc_not_found_env).completed_steps =
        [⟨"validate_snapshot", false, 1, "", "Error: Snapshot does not exist"⟩]
    ∧ (execute_pipeline_once "full_correction" doc_not_found_env).recovery_suggestion =
        some (.missing_file "prerequisite_step_failed")
    ∧ (execute_pipeline_once "full_correction" doc_not_found_env).recovery_suggestion ≠
        some (.snapshot_not_found "invalid_or_nonexistent_snapshot_id") :=
  ⟨rfl, rfl, rfl, rfl, by decide⟩

/-- Witness for C1's amended statement at the concrete
document-not-found environment. -/
theorem sp_agent_doc_not_found_short_circuit_witness :
    (execute_pipeline_once "full_correction" doc_not_found_env).success = false
    ∧ (execute_pipeline_once "full_correction" doc_not_found_env).recovery_suggestion =
        some (.missing_file "prerequisite_step_failed")
    ∧ (execute_pipeline_once "full_correction" doc_not_found_env).completed_steps.length =
        1 := by
  obtain ⟨h1, _h2, h3, h4, _h5⟩ := sp_agent_doc_not_found_short_circuit
    "full_correction" doc_not_found_env
    ["validate_snapshot", "identify_error_llm", "generate_correction_llm",
      "validate_correction_schema_llm", "apply_correction", "update_snapshot",
      "validate_snapshot"] 0 rfl (by decide)
    (fun j hj => absurd hj (Nat.not_lt_zero j)) rfl (by decide) (by decide)
  exact ⟨h1, h3, h4⟩

/-! ### C6 -/

theorem find_empty_arrays_obj_ne_nil (search_field path : String)
    (kvs : List (String × Json)) (name : String)
    (hmem : (name, Json.arr []) ∈ kvs)
    (hmatch : normalize_field_name name = normalize_field_name search_field) :
    find_empty_arrays_obj search_field path kvs ≠ [] := by
  induction kvs with
  | nil => simp at hmem
  | cons kv rest ih =>
    obtain ⟨k, v⟩ := kv
    rcases List.mem_cons.mp hmem with heq | hmem'
    · obtain ⟨hk, hv⟩ := Prod.mk.injEq .. ▸ heq
      subst hk hv
      simp [find_empty_arrays_obj, hmatch]
    · have hrec := ih hmem'
      simp only [find_empty_arrays_obj]
      intro h
      rw [List.append_assoc] at h
      rcases List.append_eq_nil.mp h with ⟨_, h2⟩
      rcases List.append_eq_nil.mp h2 with ⟨_, h3⟩
      exact hrec h3

/-- C6: when the configuration flag `use_reference_data_fallback` is false
and the document contains an empty top-level collection whose normalized
name matches the searched field, the `--empty` mode yields exactly one
result, marked manual-intervention-required with a reason string, for EVERY
possible reference document (the reference data is neither consulted nor
returned). -/
theorem reference_fallback_disabled_manual (data : Json) (field_name : String)
    (kvs : List (String × Json)) (name : String)
    (hdata : data = .obj kvs)
    (hmem : (name, Json.arr []) ∈ kvs)
    (hmatch : normalize_field_name name = normalize_field_name field_name) :
    (find_empty_arrays field_name "" data ≠ [])
    ∧ (∀ first, (find_empty_arrays field_name "" data).head? = some first →
        ∀ reference_data,
          identify_empty_field_mode data field_name false reference_data =
            [.manual first.path first.field_name
              "Empty array - reference data fallback disabled in config"]) := by
  subst hdata
  have hne : find_empty_arrays field_name "" (.obj kvs) ≠ [] := by
    simp only [find_empty_arrays]
    exact find_empty_arrays_obj_ne_nil field_name "" kvs name hmem hmatch
  refine ⟨hne, ?_⟩
  intro first hhead rd
  rcases hfe : find_empty_arrays field_name "" (.obj kvs) with _ | ⟨f0, rest⟩
  · exact absurd hfe hne
  · rw [hfe] at hhead
    simp only [List.head?_cons, Option.some.injEq] at hhead
    subst hhead
    simp [identify_empty_field_mode, hfe]

/-- Witness for C6: the empty `workerQualifications` collection with the
flag off yields the manual-intervention result even though the reference
snapshot has data for it. -/
theorem reference_fallback_disabled_manual_witness :
    identify_empty_field_mode empty_collection_doc "worker_qualifications" false
        (some reference_snapshot_doc) =
      [.manual "workerQualifications" "workerQualifications"
        "Empty array - reference data fallback disabled in config"] :=
  (reference_fallback_disabled_manual empty_collection_doc "worker_qualifications"
    [("workerQualifications", Json.arr [])] "workerQualifications" rfl
    (List.mem_singleton.mpr rfl) rfl).2
    ⟨"workerQualifications", "workerQualifications"⟩ (by decide) (some reference_snapshot_doc)

/-! ### C3 -/

theorem SubRecord_shape {v : Json} {r : List (String × Json)} (h : SubRecord v r) :
    v.isObj = true ∨ v.isArr = true := by
  cases h <;> simp [Json.isObj, Json.isArr]

theorem EmptyHitOf_lift_obj {field_name : String} {kvs : List (String × Json)}
    {k : String} {v : Json} {hit : SearchHit} (hkv : (k, v) ∈ kvs)
    (h : EmptyHitOf field_name v hit) : EmptyHitOf field_name (.obj kvs) hit := by
  obtain ⟨kvs', v', hpar, hsub, hl, he, hv, hk⟩ := h
  exact ⟨kvs', v', hpar, .inObj kvs k v kvs' hkv hsub, hl, he, hv, hk⟩

theorem EmptyHitOf_lift_arr {field_name : String} {xs : List Json}
    {x : Json} {hit : SearchHit} (hx : x ∈ xs)
    (h : EmptyHitOf field_name x hit) : EmptyHitOf field_name (.arr xs) hit := by
  obtain ⟨kvs', v', hpar, hsub, hl, he, hv, hk⟩ := h
  exact ⟨kvs', v', hpar, .inArr xs x kvs' hx hsub, hl, he, hv, hk⟩

mutual

theorem search_empty_field_sound (field_name : String) :
    ∀ (j : Json) (path : String), ∀ hit ∈ search_empty_field field_name path j,
      EmptyHitOf field_name j hit
  | .obj kvs, path, hit, hmem => by
    rcases hl : jlookup kvs field_name with _ | v
    · simp only [search_empty_field, hl, List.nil_append] at hmem
      obtain ⟨k, v, hkv, hof⟩ := search_empty_field_obj_sound field_name kvs path hit hmem
      exact EmptyHitOf_lift_obj hkv hof
    · by_cases he : is_empty_value v = true
      · simp only [search_empty_field, hl, he, if_true, List.mem_append,
          List.mem_singleton] at hmem
        rcases hmem with heq | hrec
        · subst heq
          exact ⟨kvs, v, rfl, .here kvs, hl, he, rfl, rfl⟩
        · obtain ⟨k, v', hkv, hof⟩ :=
            search_empty_field_obj_sound field_name kvs path hit hrec
          exact EmptyHitOf_lift_obj hkv hof
      · simp only [search_empty_field, hl, he, if_false, List.nil_append,
          Bool.not_eq_true] at hmem
        obtain ⟨k, v', hkv, hof⟩ :=
          search_empty_field_obj_sound field_name kvs path hit hmem
        exact EmptyHitOf_lift_obj hkv hof
  | .arr xs, path, hit, hmem => by
    simp only [search_empty_field] at hmem
    obtain ⟨x, hx, hof⟩ := search_empty_field_list_sound field_name xs path 0 hit hmem
    exact EmptyHitOf_lift_arr hx hof
  | .null, path, hit, hmem => by simp [search_empty_field] at hmem
  | .bool b, path, hit, hmem => by simp [search_empty_field] at hmem
  | .num n, path, hit, hmem => by simp [search_empty_field] at hmem
  | .str s, path, hit, hmem => by simp [search_empty_field] at hmem

theorem search_empty_field_obj_sound (field_name : String) :
    ∀ (kvs : List (String × Json)) (path : String),
      ∀ hit ∈ search_empty_field_obj field_name path kvs,
      ∃ k v, (k, v) ∈ kvs ∧ EmptyHitOf field_name v hit
  | [], path, hit, hmem => by simp [search_empty_field_obj] at hmem
  | (k, v) :: rest, path, hit, hmem => by
    simp only [search_empty_field_obj, List.mem_append] at hmem
    rcases hmem with hdeep | hrest
    · cases v with
      | obj kvs2 =>
        exact ⟨k, .obj kvs2, List.mem_cons_self _ _,
          search_empty_field_sound field_name (.obj kvs2) (join_key path k) hit hdeep⟩
      | arr xs2 =>
        exact ⟨k, .arr xs2, List.mem_cons_self _ _,
          search_empty_field_sound field_name (.arr xs2) (join_key path k) hit hdeep⟩
      | null => simp at hdeep
      | bool b => simp at hdeep
      | num n => simp at hdeep
      | str s => simp at hdeep
    · obtain ⟨k', v', hkv, hof⟩ :=
        search_empty_field_obj_sound field_name rest path hit hrest
      exact ⟨k', v', List.mem_cons_of_mem _ hkv, hof⟩

theorem search_empty_field_list_sound (field_name : String) :
    ∀ (xs : List Json) (path : String) (idx : Nat),
      ∀ hit ∈ search_empty_field_list field_name path idx xs,
      ∃ x ∈ xs, EmptyHitOf field_name x hit
  | [], path, idx, hit, hmem => by simp [search_empty_field_list] at hmem
  | item :: rest, path, idx, hit, hmem => by
    simp only [search_empty_field_list, List.mem_append] at hmem
    rcases hmem with hdeep | hrest
    · cases item with
      | obj kvs2 =>
        exact ⟨.obj kvs2, List.mem_cons_self _ _,
          search_empty_field_sound field_name (.obj kvs2) (join_idx path idx) hit hdeep⟩
      | arr xs2 =>
        exact ⟨.arr xs2, List.mem_cons_self _ _,
          search_empty_field_sound field_name (.arr xs2) (join_idx path idx) hit hdeep⟩
      | null => simp at hdeep
      | bool b => simp at hdeep
      | num n => simp at hdeep
      | str s => simp at hdeep
    · obtain ⟨x, hx, hof⟩ :=
        search_empty_field_list_sound field_name rest path (idx + 1) hit hrest
      exact ⟨x, List.mem_cons_of_mem _ hx, hof⟩

end

theorem mem_search_empty_field_obj_of (field_name path : String)
    (kvs : List (String × Json)) (k : String) (v : Json)
    (hkv : (k, v) ∈ kvs) (hshape : v.isObj = true ∨ v.isArr = true)
    (hit : SearchHit) (hmem : hit ∈ search_empty_field field_name (join_key path k) v) :
    hit ∈ search_empty_field_obj field_name path kvs := by
  induction kvs with
  | nil => simp at hkv
  | cons kv0 rest ih =>
    obtain ⟨k0, v0⟩ := kv0
    rcases List.mem_cons.mp hkv with heq | hkv'
    · obtain ⟨hk0, hv0⟩ := Prod.mk.injEq .. ▸ heq
      subst hk0 hv0
      simp only [search_empty_field_obj, List.mem_append]
      left
      rcases hshape with ho | ha
      · cases v with
        | obj kvs2 => exact hmem
        | arr xs2 => exact hmem
        | null => simp [Json.isObj] at ho
        | bool b => simp [Json.isObj] at ho
        | num n => simp [Json.isObj] at ho
        | str s => simp [Json.isObj] at ho
      · cases v with
        | obj kvs2 => exact hmem
        | arr xs2 => exact hmem
        | null => simp [Json.isArr] at ha
        | bool b => simp [Json.isArr] at ha
        | num n => simp [Json.isArr] at ha
        | str s => simp [Json.isArr] at ha
    · simp only [search_empty_field_obj, List.mem_append]
      right
      exact ih hkv'

theorem mem_search_empty_field_list_of (field_name path : String)
    (x : Json) (hshape : x.isObj = true ∨ x.isArr = true)
    (P : SearchHit → Prop)
    (hex : ∀ q, ∃ hit ∈ search_empty_field field_name q x, P hit) :
    ∀ (xs : List Json) (idx : Nat), x ∈ xs →
      ∃ hit ∈ search_empty_field_list field_name path idx xs, P hit := by
  intro xs
  induction xs with
  | nil => intro idx h; simp at h
  | cons y ys ih =>
    intro idx hx
    rcases List.mem_cons.mp hx with heq | hx'
    · subst heq
      obtain ⟨hit, hmem, hP⟩ := hex (join_idx path idx)
      refine ⟨hit, ?_, hP⟩
      simp only [search_empty_field_list, List.mem_append]
      left
      rcases hshape with ho | ha
      · cases x with
        | obj kvs2 => exact hmem
        | arr xs2 => exact hmem
        | null => simp [Json.isObj] at ho
        | bool b => simp [Json.isObj] at ho
        | num n => simp [Json.isObj] at ho
        | str s => simp [Json.isObj] at ho
      · cases x with
        | obj kvs2 => exact hmem
        | arr xs2 => exact hmem
        | null => simp [Json.isArr] at ha
        | bool b => simp [Json.isArr] at ha
        | num n => simp [Json.isArr] at ha
        | str s => simp [Json.isArr] at ha
    · obtain ⟨hit, hmem, hP⟩ := ih (idx + 1) hx'
      refine ⟨hit, ?_, hP⟩
      simp only [search_empty_field_list, List.mem_append]
      right
      exact hmem

theorem search_empty_field_complete (field_name : String) {j : Json}
    {kvs : List (String × Json)} (hsub : SubRecord j kvs) :
    ∀ v, jlookup kvs field_name = some v → is_empty_value v = true →
    ∀ path, ∃ hit ∈ search_empty_field field_name path j,
      hit.parent = .obj kvs ∧ hit.value = v := by
  induction hsub with
  | here kvs0 =>
    intro v hl he path
    refine ⟨⟨join_key path field_name, some field_name, none, v, .obj kvs0, none, false⟩,
      ?_, rfl, rfl⟩
    simp [search_empty_field, hl, he]
  | inObj kvs0 k v' r hkv hsub' ih =>
    intro v hl he path
    obtain ⟨hit, hmem, hp, hv⟩ := ih v hl he (join_key path k)
    refine ⟨hit, ?_, hp, hv⟩
    have hmemobj := mem_search_empty_field_obj_of field_name path kvs0 k v' hkv
      (SubRecord_shape hsub') hit hmem
    rcases hlk : jlookup kvs0 field_name with _ | w
    · simp only [search_empty_field, hlk, List.nil_append]
      exact hmemobj
    · by_cases hew : is_empty_value w = true
      · simp only [search_empty_field, hlk, hew, if_true, List.mem_append]
        right
        exact hmemobj
      · simp only [search_empty_field, hlk, hew, if_false, List.nil_append,
          Bool.not_eq_true]
        exact hmemobj
  | inArr xs x r hx hsub' ih =>
    intro v hl he path
    obtain ⟨hit, hmem, hP⟩ := mem_search_empty_field_list_of field_name path x
      (SubRecord_shape hsub') (fun hh => hh.parent = .obj r ∧ hh.value = v)
      (fun q => ih v hl he q) xs 0 hx
    exact ⟨hit, by simpa [search_empty_field] using hmem, hP⟩

/-- C3 counterexample: for the searched field `demandId`, the empty-field
search over a document whose only record does NOT contain the field returns
no results at all, although the claim requires records with the field
absent to be included (the record is reachable and lacks the key). -/
theorem search_empty_field_absent_counterexample :
    search_empty_field "demandId" "" missing_field_doc = []
    ∧ jlookup [("other", Json.num 1)] "demandId" = none
    ∧ SubRecord missing_field_doc [("other", Json.num 1)] :=
  ⟨rfl, rfl,
    .inObj _ "demands" (Json.arr [Json.obj [("other", Json.num 1)]]) _
      (List.mem_singleton.mpr rfl)
      (.inArr _ (Json.obj [("other", Json.num 1)]) _ (List.mem_singleton.mpr rfl)
        (.here _))⟩

/-- C3 amended: the empty-field search returns exactly the records that
CONTAIN the searched field with a null, empty or whitespace-only value:
every returned hit's parent is a reachable record whose field is present
and empty (soundness), and every reachable record whose field is present
and empty produces a hit (completeness).  Records in which the field is
absent are NOT returned. -/
theorem search_empty_field_characterization (field_name : String) (doc : Json) :
    (∀ hit ∈ search_empty_field field_name "" doc,
      ∃ kvs v, hit.parent = .obj kvs ∧ SubRecord doc kvs ∧
        jlookup kvs field_name = some v ∧ is_empty_value v = true ∧ hit.value = v)
    ∧ (∀ kvs, SubRecord doc kvs → ∀ v, jlookup kvs field_name = some v →
        is_empty_value v = true →
        ∃ hit ∈ search_empty_field field_name "" doc,
          hit.parent = .obj kvs ∧ hit.value = v) := by
  constructor
  · intro hit hmem
    obtain ⟨kvs, v, hpar, hsub, hl, he, hv, _hk⟩ :=
      search_empty_field_sound field_name doc "" hit hmem
    exact ⟨kvs, v, hpar, hsub, hl, he, hv⟩
  · intro kvs hsub v hl he
    exact search_empty_field_complete field_name hsub v hl he ""

/-- Witness for C3's amended characterization at a concrete document with a
whitespace-only `demandId`. -/
theorem search_empty_field_characterization_witness :
    (search_empty_field "demandId" ""
      (.obj [("demands", Json.arr [Json.obj [("demandId", Json.str " ")]])])).length = 1
    ∧ ∃ hit ∈ search_empty_field "demandId" ""
        (.obj [("demands", Json.arr [Json.obj [("demandId", Json.str " ")]])]),
        hit.parent = .obj [("demandId", Json.str " ")] ∧ hit.value = Json.str " " := by
  refine ⟨rfl, ?_⟩
  exact (search_empty_field_characterization "demandId"
      (.obj [("demands", Json.arr [Json.obj [("demandId", Json.str " ")]])])).2
    [("demandId", Json.str " ")]
    (.inObj _ "demands" (Json.arr [Json.obj [("demandId", Json.str " ")]]) _
      (List.mem_singleton.mpr rfl)
      (.inArr _ (Json.obj [("demandId", Json.str " ")]) _ (List.mem_singleton.mpr rfl)
        (.here _)))
    (Json.str " ") rfl rfl

/-! ### C5: stable sort lemmas -/

theorem mem_insert_desc {α : Type} (ge : α → α → Bool) (x : α) (l : List α) (y : α) :
    y ∈ insert_desc ge x l ↔ y = x ∨ y ∈ l := by
  induction l with
  | nil => simp [insert_desc]
  | cons a as ih =>
    by_cases h : ge x a <;> simp [insert_desc, h, ih] <;> try tauto

theorem mem_sort_desc {α : Type} (ge : α → α → Bool) (l : List α) (y : α) :
    y ∈ sort_desc ge l ↔ y ∈ l := by
  induction l with
  | nil => simp [sort_desc]
  | cons a as ih => simp [sort_desc, mem_insert_desc, ih]

theorem pairwise_insert_desc {α : Type} (ge : α → α → Bool)
    (htot : ∀ a b, ge a b = true ∨ ge b a = true)
    (htrans : ∀ a b c, ge a b = true → ge b c = true → ge a c = true)
    (x : α) (l : List α) (hl : List.Pairwise (fun a b => ge a b = true) l) :
    List.Pairwise (fun a b => ge a b = true) (insert_desc ge x l) := by
  induction l with
  | nil => simp [insert_desc]
  | cons y ys ih =>
    rcases List.pairwise_cons.mp hl with ⟨hy, hys⟩
    by_cases h : ge x y = true
    · rw [show insert_desc ge x (y :: ys) = x :: y :: ys by simp [insert_desc, h]]
      refine List.pairwise_cons.mpr ⟨?_, hl⟩
      intro z hz
      rcases List.mem_cons.mp hz with heq | hz'
      · exact heq ▸ h
      · exact htrans x y z h (hy z hz')
    · rw [show insert_desc ge x (y :: ys) = y :: insert_desc ge x ys by
        simp [insert_desc, h]]
      refine List.pairwise_cons.mpr ⟨?_, ih hys⟩
      intro z hz
      rcases (mem_insert_desc ge x ys z).mp hz with heq | hz'
      · subst heq
        rcases htot z y with hxy | hyx
        · exact absurd hxy h
        · exact hyx
      · exact hy z hz'

theorem pairwise_sort_desc {α : Type} (ge : α → α → Bool)
    (htot : ∀ a b, ge a b = true ∨ ge b a = true)
    (htrans : ∀ a b c, ge a b = true → ge b c = true → ge a c = true)
    (l : List α) :
    List.Pairwise (fun a b => ge a b = true) (sort_desc ge l) := by
  induction l with
  | nil => simp [sort_desc]
  | cons a as ih => exact pairwise_insert_desc ge htot htrans a (sort_desc ge as) ih

/-! ### C5: the similarity-score formula -/

theorem min_similarity_06_toRat : min_similarity_06.toRat = 3 / 5 := by
  simp only [min_similarity_06, Frac.toRat]
  norm_num

theorem Frac.one_toRat : Frac.one.toRat = 1 := by
  simp [Frac.one, Frac.toRat]

theorem frac_capped_toRat (NUM : ℤ) (L : ℕ) (hpos : 0 < 5 * L) :
    (if 5 * (L:ℤ) ≤ NUM then Frac.one else ⟨NUM, ⟨5 * L, hpos⟩⟩ : Frac).toRat =
      min 1 ((NUM : ℚ) / ((5 * L : ℕ) : ℚ)) := by
  have hq : (0:ℚ) < ((5 * L : ℕ) : ℚ) := by exact_mod_cast hpos
  by_cases hcmp : 5 * (L:ℤ) ≤ NUM
  · rw [if_pos hcmp, Frac.one_toRat, eq_comm, min_eq_left]
    rw [le_div_iff₀ hq, one_mul]
    push_cast
    exact_mod_cast hcmp
  · rw [if_neg hcmp, min_eq_right]
    · simp [Frac.toRat]
    · rw [div_le_one hq]
      have h2 : NUM ≤ 5 * (L:ℤ) := le_of_lt (not_le.mp hcmp)
      exact_mod_cast h2

theorem calculate_similarity_score_formula (s c : String)
    (hneq : py_lower s ≠ py_lower c)
    (hlen : max (py_lower s).toList.length (py_lower c).toList.length ≠ 0) :
    (calculate_similarity_score s c).toRat =
      min 1 (1 - (levenshtein_distance (py_lower s) (py_lower c) : ℚ) /
          ((max (py_lower s).toList.length (py_lower c).toList.length : ℕ) : ℚ) +
        (if py_in (py_lower s) (py_lower c) || py_in (py_lower c) (py_lower s)
         then (1:ℚ)/5 else 0)) := by
  have hLpos : 0 < max (py_lower s).toList.length (py_lower c).toList.length :=
    Nat.pos_of_ne_zero hlen
  unfold calculate_similarity_score
  rw [if_neg hneq, dif_neg hlen, frac_capped_toRat]
  congr 1
  rcases hcond : (py_in (py_lower s) (py_lower c) || py_in (py_lower c) (py_lower s))
    with _ | _
  · simp only [hcond, Bool.false_eq_true, if_false]
    have hq2 : ((max (py_lower s).toList.length (py_lower c).toList.length : ℕ) : ℚ) ≠ 0 :=
      Nat.cast_ne_zero.mpr hlen
    field_simp
    have hLQ : (((py_lower s).length : ℚ) ⊔ ((py_lower c).length : ℚ)) ≠ 0 := by
      push_cast at hq2
      exact hq2
    field_simp
    ring
  · simp only [hcond, if_true]
    have hq2 : ((max (py_lower s).toList.length (py_lower c).toList.length : ℕ) : ℚ) ≠ 0 :=
      Nat.cast_ne_zero.mpr hlen
    field_simp
    have hLQ : (((py_lower s).length : ℚ) ⊔ ((py_lower c).length : ℚ)) ≠ 0 := by
      push_cast at hq2
      exact hq2
    field_simp
    ring

/-! ### C5: soundness of the fuzzy walk -/

theorem HasStrValue_shape {v : Json} {s : String} (h : HasStrValue v s) :
    v.isObj = true ∨ v.isArr = true := by
  cases h <;> simp [Json.isObj, Json.isArr]

mutual

theorem fuzzy_search_sound (t : String) :
    ∀ (j : Json) (path : String),
      ∀ pr ∈ fuzzy_search_in_dict t min_similarity_06 path j,
      FuzzyHitOf t j pr
  | .obj kvs, path, pr, hmem => by
    simp only [fuzzy_search_in_dict] at hmem
    obtain ⟨k, v, hkv, hcase⟩ :=
      fuzzy_search_obj_sound t kvs path (.obj kvs) pr hmem
    rcases hcase with ⟨s, hv, hval, hlen, hsc, hble⟩ | ⟨s, hval, hlen, hsc, hble, hhs⟩
    · subst hv
      exact ⟨s, hval, hlen, hsc, hble, .inObjHere kvs k s hkv⟩
    · exact ⟨s, hval, hlen, hsc, hble, .inObjDeep kvs k v s hkv hhs⟩
  | .arr xs, path, pr, hmem => by
    simp only [fuzzy_search_in_dict] at hmem
    obtain ⟨x, hx, hcase⟩ :=
      fuzzy_search_list_sound t xs path (.arr xs) 0 pr hmem
    rcases hcase with ⟨s, hv, hval, hlen, hsc, hble⟩ | ⟨s, hval, hlen, hsc, hble, hhs⟩
    · subst hv
      exact ⟨s, hval, hlen, hsc, hble, .inArrHere xs s hx⟩
    · exact ⟨s, hval, hlen, hsc, hble, .inArrDeep xs x s hx hhs⟩
  | .null, path, pr, hmem => by simp [fuzzy_search_in_dict] at hmem
  | .bool b, path, pr, hmem => by simp [fuzzy_search_in_dict] at hmem
  | .num n, path, pr, hmem => by simp [fuzzy_search_in_dict] at hmem
  | .str s, path, pr, hmem => by simp [fuzzy_search_in_dict] at hmem

theorem fuzzy_search_obj_sound (t : String) :
    ∀ (kvs : List (String × Json)) (path : String) (parent : Json),
      ∀ pr ∈ fuzzy_search_obj t min_similarity_06 path parent kvs,
      ∃ k v, (k, v) ∈ kvs ∧
        ((∃ s, v = Json.str s ∧ pr.1.value = Json.str s ∧ 0 < s.toList.length ∧
            pr.2 = calculate_similarity_score t s ∧
            Frac.ble min_similarity_06 pr.2 = true) ∨
          FuzzyHitOf t v pr)
  | [], path, parent, pr, hmem => by simp [fuzzy_search_obj] at hmem
  | (k, v) :: rest, path, parent, pr, hmem => by
    simp only [fuzzy_search_obj, List.mem_append] at hmem
    rcases hmem with (hown | hdeep) | hrest
    · cases v with
      | str s =>
        by_cases hlen : s.toList.length > 0
        · by_cases hble :
            Frac.ble min_similarity_06 (calculate_similarity_score t s) = true
          · simp only [hlen, if_true, hble, List.mem_singleton] at hown
            subst hown
            exact ⟨k, .str s, List.mem_cons_self _ _,
              Or.inl ⟨s, rfl, rfl, hlen, rfl, hble⟩⟩
          · simp [hlen, hble] at hown
        · simp at hlen
          simp [hlen] at hown
      | null => simp at hown
      | bool b => simp at hown
      | num n => simp at hown
      | obj kvs2 => simp at hown
      | arr xs2 => simp at hown
    · cases v with
      | obj kvs2 =>
        exact ⟨k, .obj kvs2, List.mem_cons_self _ _,
          Or.inr (fuzzy_search_sound t (.obj kvs2) (join_key path k) pr hdeep)⟩
      | arr xs2 =>
        exact ⟨k, .arr xs2, List.mem_cons_self _ _,
          Or.inr (fuzzy_search_sound t (.arr xs2) (join_key path k) pr hdeep)⟩
      | null => simp at hdeep
      | bool b => simp at hdeep
      | num n => simp at hdeep
      | str s => simp at hdeep
    · obtain ⟨k', v', hkv, hc⟩ :=
        fuzzy_search_obj_sound t rest path parent pr hrest
      exact ⟨k', v', List.mem_cons_of_mem _ hkv, hc⟩

theorem fuzzy_search_list_sound (t : String) :
    ∀ (xs : List Json) (path : String) (parent : Json) (idx : Nat),
      ∀ pr ∈ fuzzy_search_list t min_similarity_06 path parent idx xs,
      ∃ x ∈ xs,
        ((∃ s, x = Json.str s ∧ pr.1.value = Json.str s ∧ 0 < s.toList.length ∧
            pr.2 = calculate_similarity_score t s ∧
            Frac.ble min_similarity_06 pr.2 = true) ∨
          FuzzyHitOf t x pr)
  | [], path, parent, idx, pr, hmem => by simp [fuzzy_search_list] at hmem
  | item :: rest, path, parent, idx, pr, hmem => by
    simp only [fuzzy_search_list, List.mem_append] at hmem
    rcases hmem with (hown | hdeep) | hrest
    · cases item with
      | str s =>
        by_cases hlen : s.toList.length > 0
        · by_cases hble :
            Frac.ble min_similarity_06 (calculate_similarity_score t s) = true
          · simp only [hlen, if_true, hble, List.mem_singleton] at hown
            subst hown
            exact ⟨.str s, List.mem_cons_self _ _,
              Or.inl ⟨s, rfl, rfl, hlen, rfl, hble⟩⟩
          · simp [hlen, hble] at hown
        · simp at hlen
          simp [hlen] at hown
      | null => simp at hown
      | bool b => simp at hown
      | num n => simp at hown
      | obj kvs2 => simp at hown
      | arr xs2 => simp at hown
    · cases item with
      | obj kvs2 =>
        exact ⟨.obj kvs2, List.mem_cons_self _ _,
          Or.inr (fuzzy_search_sound t (.obj kvs2) (join_idx path idx) pr hdeep)⟩
      | arr xs2 =>
        exact ⟨.arr xs2, List.mem_cons_self _ _,
          Or.inr (fuzzy_search_sound t (.arr xs2) (join_idx path idx) pr hdeep)⟩
      | null => simp at hdeep
      | bool b => simp at hdeep
      | num n => simp at hdeep
      | str s => simp at hdeep
    · obtain ⟨x, hx, hc⟩ :=
        fuzzy_search_list_sound t rest path parent (idx + 1) pr hrest
      exact ⟨x, List.mem_cons_of_mem _ hx, hc⟩

end

/-! ### C5: completeness of the exact and fuzzy walks -/

theorem append3_ne_nil_right {α : Type} (a b : List α) {c : List α} (h : c ≠ []) :
    a ++ b ++ c ≠ [] := by
  intro hc
  rw [List.append_assoc, List.append_eq_nil, List.append_eq_nil] at hc
  exact h hc.2.2

theorem append3_ne_nil_mid {α : Type} (a : List α) {b : List α} (c : List α)
    (h : b ≠ []) : a ++ b ++ c ≠ [] := by
  intro hc
  rw [List.append_assoc, List.append_eq_nil, List.append_eq_nil] at hc
  exact h hc.2.1

theorem search_obj_ne_nil_str (t : String) {k s : String}
    (hin : py_in (py_lower t) (py_lower s) = true) :
    ∀ (kvs : List (String × Json)) (path : String) (parent : Json),
      (k, Json.str s) ∈ kvs → search_in_dict_obj t path parent kvs ≠ []
  | [], path, parent, hmem => by simp at hmem
  | (k0, v0) :: rest, path, parent, hmem => by
    rcases List.mem_cons.mp hmem with heq | hmem'
    · obtain ⟨hk0, hv0⟩ := Prod.mk.injEq .. ▸ heq
      subst hk0 hv0
      simp only [search_in_dict_obj]
      simp [hin]
    · simp only [search_in_dict_obj]
      exact append3_ne_nil_right _ _
        (search_obj_ne_nil_str t hin rest path parent hmem')

theorem search_obj_ne_nil_deep (t : String) {k : String} {v : Json}
    (hshape : v.isObj = true ∨ v.isArr = true)
    (hne : ∀ p, search_in_dict t p v ≠ []) :
    ∀ (kvs : List (String × Json)) (path : String) (parent : Json),
      (k, v) ∈ kvs → search_in_dict_obj t path parent kvs ≠ []
  | [], path, parent, hmem => by simp at hmem
  | (k0, v0) :: rest, path, parent, hmem => by
    rcases List.mem_cons.mp hmem with heq | hmem'
    · obtain ⟨hk0, hv0⟩ := Prod.mk.injEq .. ▸ heq
      subst hk0 hv0
      simp only [search_in_dict_obj]
      cases v with
      | obj kvs2 => exact append3_ne_nil_mid _ _ (hne (join_key path k))
      | arr xs2 => exact append3_ne_nil_mid _ _ (hne (join_key path k))
      | null => rcases hshape with h | h <;> simp [Json.isObj, Json.isArr] at h
      | bool b => rcases hshape with h | h <;> simp [Json.isObj, Json.isArr] at h
      | num n => rcases hshape with h | h <;> simp [Json.isObj, Json.isArr] at h
      | str s => rcases hshape with h | h <;> simp [Json.isObj, Json.isArr] at h
    · simp only [search_in_dict_obj]
      exact append3_ne_nil_right _ _
        (search_obj_ne_nil_deep t hshape hne rest path parent hmem')

theorem search_list_ne_nil_str (t : String) {s : String}
    (hin : py_in (py_lower t) (py_lower s) = true) :
    ∀ (xs : List Json) (path : String) (parent : Json) (idx : Nat),
      Json.str s ∈ xs → search_in_dict_list t path parent idx xs ≠ []
  | [], path, parent, idx, hmem => by simp at hmem
  | item :: rest, path, parent, idx, hmem => by
    rcases List.mem_cons.mp hmem with heq | hmem'
    · subst heq
      simp only [search_in_dict_list]
      simp [hin]
    · simp only [search_in_dict_list]
      exact append3_ne_nil_right _ _
        (search_list_ne_nil_str t hin rest path parent (idx + 1) hmem')

theorem search_list_ne_nil_deep (t : String) {x : Json}
    (hshape : x.isObj = true ∨ x.isArr = true)
    (hne : ∀ p, search_in_dict t p x ≠ []) :
    ∀ (xs : List Json) (path : String) (parent : Json) (idx : Nat),
      x ∈ xs → search_in_dict_list t path parent idx xs ≠ []
  | [], path, parent, idx, hmem => by simp at hmem
  | item :: rest, path, parent, idx, hmem => by
    rcases List.mem_cons.mp hmem with heq | hmem'
    · subst heq
      simp only [search_in_dict_list]
      cases x with
      | obj kvs2 => exact append3_ne_nil_mid _ _ (hne (join_idx path idx))
      | arr xs2 => exact append3_ne_nil_mid _ _ (hne (join_idx path idx))
      | null => rcases hshape with h | h <;> simp [Json.isObj, Json.isArr] at h
      | bool b => rcases hshape with h | h <;> simp [Json.isObj, Json.isArr] at h
      | num n => rcases hshape with h | h <;> simp [Json.isObj, Json.isArr] at h
      | str s2 => rcases hshape with h | h <;> simp [Json.isObj, Json.isArr] at h
    · simp only [search_in_dict_list]
      exact append3_ne_nil_right _ _
        (search_list_ne_nil_deep t hshape hne rest path parent (idx + 1) hmem')

theorem search_in_dict_complete (t : String) {j : Json} {s : String}
    (hs : HasStrValue j s) :
    py_in (py_lower t) (py_lower s) = true →
    ∀ path, search_in_dict t path j ≠ [] := by
  induction hs with
  | inObjHere kvs k s hmem =>
    intro hin path
    simp only [search_in_dict]
    exact search_obj_ne_nil_str t hin kvs path (.obj kvs) hmem
  | inObjDeep kvs k v s hmem hsv ih =>
    intro hin path
    simp only [search_in_dict]
    exact search_obj_ne_nil_deep t (HasStrValue_shape hsv) (ih hin) kvs path
      (.obj kvs) hmem
  | inArrHere xs s hmem =>
    intro hin path
    simp only [search_in_dict]
    exact search_list_ne_nil_str t hin xs path (.arr xs) 0 hmem
  | inArrDeep xs x s hmem hsx ih =>
    intro hin path
    simp only [search_in_dict]
    exact search_list_ne_nil_deep t (HasStrValue_shape hsx) (ih hin) xs path
      (.arr xs) 0 hmem

theorem fuzzy_obj_ne_nil_str (t : String) {k s : String}
    (hlen : 0 < s.toList.length)
    (hble : Frac.ble min_similarity_06 (calculate_similarity_score t s) = true) :
    ∀ (kvs : List (String × Json)) (path : String) (parent : Json),
      (k, Json.str s) ∈ kvs →
      fuzzy_search_obj t min_similarity_06 path parent kvs ≠ []
  | [], path, parent, hmem => by simp at hmem
  | (k0, v0) :: rest, path, parent, hmem => by
    rcases List.mem_cons.mp hmem with heq | hmem'
    · obtain ⟨hk0, hv0⟩ := Prod.mk.injEq .. ▸ heq
      subst hk0 hv0
      simp only [fuzzy_search_obj]
      have hlen' : 0 < s.length := by simpa using hlen
      simp [hlen', hble]
    · simp only [fuzzy_search_obj]
      exact append3_ne_nil_right _ _
        (fuzzy_obj_ne_nil_str t hlen hble rest path parent hmem')

theorem fuzzy_obj_ne_nil_deep (t : String) {k : String} {v : Json}
    (hshape : v.isObj = true ∨ v.isArr = true)
    (hne : ∀ p, fuzzy_search_in_dict t min_similarity_06 p v ≠ []) :
    ∀ (kvs : List (String × Json)) (path : String) (parent : Json),
      (k, v) ∈ kvs → fuzzy_search_obj t min_similarity_06 path parent kvs ≠ []
  | [], path, parent, hmem => by simp at hmem
  | (k0, v0) :: rest, path, parent, hmem => by
    rcases List.mem_cons.mp hmem with heq | hmem'
    · obtain ⟨hk0, hv0⟩ := Prod.mk.injEq .. ▸ heq
      subst hk0 hv0
      simp only [fuzzy_search_obj]
      cases v with
      | obj kvs2 => exact append3_ne_nil_mid _ _ (hne (join_key path k))
      | arr xs2 => exact append3_ne_nil_mid _ _ (hne (join_key path k))
      | null => rcases hshape with h | h <;> simp [Json.isObj, Json.isArr] at h
      | bool b => rcases hshape with h | h <;> simp [Json.isObj, Json.isArr] at h
      | num n => rcases hshape with h | h <;> simp [Json.isObj, Json.isArr] at h
      | str s => rcases hshape with h | h <;> simp [Json.isObj, Json.isArr] at h
    · simp only [fuzzy_search_obj]
      exact append3_ne_nil_right _ _
        (fuzzy_obj_ne_nil_deep t hshape hne rest path parent hmem')

theorem fuzzy_list_ne_nil_str (t : String) {s : String}
    (hlen : 0 < s.toList.length)
    (hble : Frac.ble min_similarity_06 (calculate_similarity_score t s) = true) :
    ∀ (xs : List Json) (path : String) (parent : Json) (idx : Nat),
      Json.str s ∈ xs →
      fuzzy_search_list t min_similarity_06 path parent idx xs ≠ []
  | [], path, parent, idx, hmem => by simp at hmem
  | item :: rest, path, parent, idx, hmem => by
    rcases List.mem_cons.mp hmem with heq | hmem'
    · subst heq
      simp only [fuzzy_search_list]
      have hlen' : 0 < s.length := by simpa using hlen
      simp [hlen', hble]
    · simp only [fuzzy_search_list]
      exact append3_ne_nil_right _ _
        (fuzzy_list_ne_nil_str t hlen hble rest path parent (idx + 1) hmem')

theorem fuzzy_list_ne_nil_deep (t : String) {x : Json}
    (hshape : x.isObj = true ∨ x.isArr = true)
    (hne : ∀ p, fuzzy_search_in_dict t min_similarity_06 p x ≠ []) :
    ∀ (xs : List Json) (path : String) (parent : Json) (idx : Nat),
      x ∈ xs → fuzzy_search_list t min_similarity_06 path parent idx xs ≠ []
  | [], path, parent, idx, hmem => by simp at hmem
  | item :: rest, path, parent, idx, hmem => by
    rcases List.mem_cons.mp hmem with heq | hmem'
    · subst heq
      simp only [fuzzy_search_list]
      cases x with
      | obj kvs2 => exact append3_ne_nil_mid _ _ (hne (join_idx path idx))
      | arr xs2 => exact append3_ne_nil_mid _ _ (hne (join_idx path idx))
      | null => rcases hshape with h | h <;> simp [Json.isObj, Json.isArr] at h
      | bool b => rcases hshape with h | h <;> simp [Json.isObj, Json.isArr] at h
      | num n => rcases hshape with h | h <;> simp [Json.isObj, Json.isArr] at h
      | str s2 => rcases hshape with h | h <;> simp [Json.isObj, Json.isArr] at h
    · simp only [fuzzy_search_list]
      exact append3_ne_nil_right _ _
        (fuzzy_list_ne_nil_deep t hshape hne rest path parent (idx + 1) hmem')

theorem fuzzy_search_complete (t : String) {j : Json} {s : String}
    (hs : HasStrValue j s) :
    0 < s.toList.length →
    Frac.ble min_similarity_06 (calculate_similarity_score t s) = true →
    ∀ path, fuzzy_search_in_dict t min_similarity_06 path j ≠ [] := by
  induction hs with
  | inObjHere kvs k s hmem =>
    intro hlen hble path
    simp only [fuzzy_search_in_dict]
    exact fuzzy_obj_ne_nil_str t hlen hble kvs path (.obj kvs) hmem
  | inObjDeep kvs k v s hmem hsv ih =>
    intro hlen hble path
    simp only [fuzzy_search_in_dict]
    exact fuzzy_obj_ne_nil_deep t (HasStrValue_shape hsv) (ih hlen hble) kvs path
      (.obj kvs) hmem
  | inArrHere xs s hmem =>
    intro hlen hble path
    simp only [fuzzy_search_in_dict]
    exact fuzzy_list_ne_nil_str t hlen hble xs path (.arr xs) 0 hmem
  | inArrDeep xs x s hmem hsx ih =>
    intro hlen hble path
    simp only [fuzzy_search_in_dict]
    exact fuzzy_list_ne_nil_deep t (HasStrValue_shape hsx) (ih hlen hble) xs path
      (.arr xs) 0 hmem

theorem take5_ne_nil {α : Type} {l : List α} (h : l ≠ []) : l.take 5 ≠ [] := by
  cases l with
  | nil => exact absurd rfl h
  | cons a as => simp

/-- C5: the fuzzy fallback of `search_by_id` never runs when the exact
search returns at least one result (the exact results are returned as-is);
when the exact search returns zero results, the returned list has at most
5 hits, is sorted descending by similarity score, and every hit is tagged
`fuzzy_match = true` with its similarity score attached, where the score is
exactly `calculate_similarity_score` of the target against a nonempty
string value occurring in the document, reaches the `0.6` threshold, and
equals `min(1, 1 - distance/max_len + bonus)` with a `1/5` bonus exactly
when either lowercased string contains the other; moreover whenever some
string value of the document is nonempty and scores at or above the
threshold, the returned list is nonempty. -/
theorem fuzzy_fallback_spec (data : Json) (t : String) :
    (search_in_dict t "" data ≠ [] → search_by_id data t = search_in_dict t "" data) ∧
    (search_in_dict t "" data = [] →
      (search_by_id data t).length ≤ 5 ∧
      List.Pairwise (fun a b => hit_score b ≤ hit_score a) (search_by_id data t) ∧
      (∀ h ∈ search_by_id data t,
        h.fuzzy_match = true ∧
        ∃ s f, h.value = Json.str s ∧ h.similarity_score = some f ∧
          0 < s.toList.length ∧ f = calculate_similarity_score t s ∧
          HasStrValue data s ∧ (3 / 5 : ℚ) ≤ f.toRat ∧
          f.toRat = min 1
            (1 - (levenshtein_distance (py_lower t) (py_lower s) : ℚ) /
              ((max (py_lower t).toList.length (py_lower s).toList.length : ℕ) : ℚ) +
            (if py_in (py_lower t) (py_lower s) || py_in (py_lower s) (py_lower t)
             then (1:ℚ)/5 else 0))) ∧
      (∀ s, HasStrValue data s → 0 < s.toList.length →
        Frac.ble min_similarity_06 (calculate_similarity_score t s) = true →
        search_by_id data t ≠ [])) := by
  constructor
  · intro hne
    simp only [search_by_id]
    rw [if_neg (by simpa [List.isEmpty_iff] using hne)]
  · intro hexact
    have hnotin : ∀ s, HasStrValue data s →
        py_in (py_lower t) (py_lower s) = false := by
      intro s hs
      cases hpp : py_in (py_lower t) (py_lower s) with
      | false => rfl
      | true => exact absurd hexact (search_in_dict_complete t hs hpp "")
    by_cases hfz : fuzzy_search_in_dict t min_similarity_06 "" data = []
    · have hSR0 : search_by_id data t = [] := by
        simp [search_by_id, hexact, hfz]
      refine ⟨by simp [hSR0], by simp [hSR0], by simp [hSR0], ?_⟩
      intro s hs hlen hble
      exact absurd hfz (fuzzy_search_complete t hs hlen hble "")
    · have hSR : search_by_id data t =
          ((sort_desc fuzzy_ge
              (fuzzy_search_in_dict t min_similarity_06 "" data)).take 5).map
            (fun rs =>
              { rs.1 with similarity_score := some rs.2, fuzzy_match := true }) := by
        simp only [search_by_id, hexact, List.isEmpty_nil, if_true]
        rw [if_neg (by simpa [List.isEmpty_iff] using hfz)]
      refine ⟨?_, ?_, ?_, ?_⟩
      · rw [hSR]
        simp only [List.length_map]
        exact List.length_take_le 5 _
      · rw [hSR, List.pairwise_map]
        have hp : List.Pairwise (fun a b => fuzzy_ge a b = true)
            (sort_desc fuzzy_ge (fuzzy_search_in_dict t min_similarity_06 "" data)) :=
          pairwise_sort_desc fuzzy_ge
            (fun a b => Frac.ble_total b.2 a.2)
            (fun a b c h1 h2 => Frac.ble_trans h2 h1) _
        have hp5 := List.Pairwise.sublist (List.take_sublist 5 _) hp
        exact hp5.imp (fun hab => (Frac.ble_iff _ _).mp hab)
      · intro h hmem
        rw [hSR] at hmem
        obtain ⟨pr, hpr5, hfeq⟩ := List.mem_map.mp hmem
        have hprs : pr ∈ sort_desc fuzzy_ge
            (fuzzy_search_in_dict t min_similarity_06 "" data) :=
          List.mem_of_mem_take hpr5
        have hprf : pr ∈ fuzzy_search_in_dict t min_similarity_06 "" data :=
          (mem_sort_desc fuzzy_ge _ pr).mp hprs
        obtain ⟨s, hval, hlen, hsc, hble, hhs⟩ := fuzzy_search_sound t data "" pr hprf
        subst hfeq
        refine ⟨rfl, s, pr.2, hval, rfl, hlen, hsc, hhs, ?_, ?_⟩
        · have hle := (Frac.ble_iff _ _).mp hble
          rwa [min_similarity_06_toRat] at hle
        · have hnin : py_in (py_lower t) (py_lower s) = false := hnotin s hhs
          have hneq : py_lower t ≠ py_lower s := by
            intro he
            rw [he, py_in_refl (py_lower s)] at hnin
            exact absurd hnin (by simp)
          have hlenmax :
              max (py_lower t).toList.length (py_lower s).toList.length ≠ 0 := by
            have hls : (py_lower s).toList.length = s.toList.length := by
              simp [py_lower]
            omega
          rw [hsc]
          exact calculate_similarity_score_formula t s hneq hlenmax
      · intro s hs hlen hble
        rw [hSR]
        intro hcon
        rw [List.map_eq_nil_iff] at hcon
        obtain ⟨x, hx⟩ := List.exists_mem_of_ne_nil _ hfz
        have hxs : x ∈ sort_desc fuzzy_ge
            (fuzzy_search_in_dict t min_similarity_06 "" data) :=
          (mem_sort_desc fuzzy_ge _ x).mpr hx
        exact take5_ne_nil (List.ne_nil_of_mem hxs) hcon

theorem fuzzy_fallback_spec_witness :
    search_in_dict "ABC123" "" fuzzy_example_doc = [] ∧
    (search_by_id fuzzy_example_doc "ABC123").length ≤ 5 ∧
    search_by_id fuzzy_example_doc "ABC123" ≠ [] := by
  have h := (fuzzy_fallback_spec fuzzy_example_doc "ABC123").2 (by rfl)
  refine ⟨by rfl, h.1, ?_⟩
  refine h.2.2.2 "ABD123" ?_ (by decide) (by decide)
  exact HasStrValue.inObjDeep
    [("demands", Json.arr [Json.str "ABD123", Json.str "XYZ999"])]
    "demands" (Json.arr [Json.str "ABD123", Json.str "XYZ999"]) "ABD123"
    (List.mem_singleton.mpr rfl)
    (HasStrValue.inArrHere [Json.str "ABD123", Json.str "XYZ999"] "ABD123"
      (List.mem_cons_self _ _))
